import Mathlib

/-!
Verification development for the document engine of `docker-yaml-editor.js`
(structural YAML-subset parser, serializer, Docker-Compose schema validator
and autocomplete engine).  The JavaScript source is embedded shallowly:

* JS strings are Lean `String`s (in Lean 4.14 a `String` is a packed
  `List Char`, and the character-level helpers below work on `.data`);
  only space and tab are modelled as whitespace, which covers every
  whitespace character the engine's single-line operations can meet on
  the inputs exercised here (no carriage returns inside lines).
* JS values (the parse tree) are the inductive `Value`; objects are
  insertion-ordered association lists with overwrite-in-place semantics,
  mirroring JS object key ordering.
* JS numbers are modelled as exact rationals.  `parseInt`/`parseFloat`
  on the decimal literals the parser accepts agree with this model up to
  double-precision rounding; the claims proved here do not exercise the
  divergence (numbers beyond 2^53 or more than 17 significant digits).
* The imperative parser mutates a result object through a stack of
  aliased references.  Since every stack frame's container lives at
  exactly one slot of the frame below it, this is modelled by a pure
  stack of frames each carrying its container and the access path to its
  slot in the parent frame; popping a frame writes its container back.
* Assigning a string key to a JS array (`target[key] = v` when the
  enclosing container is an array) sets the element for a canonical
  in-range index key and is dropped otherwise; JS would instead attach a
  non-index property, which neither this model's array type nor the
  spec's Node data model can represent.  No theorem below depends on an
  input that takes that path.
* `Array.prototype.sort` with a comparator is modelled by a stable
  insertion sort (`jsSortStable`), matching the stable sort mandated by
  modern JS engines for the total preorders used by the engine;
  `localeCompare` on the ASCII schema keys is code-point comparison.
-/

namespace DYE

/-- Whitespace as used by the engine inside a line (space and tab). -/
def isWs (c : Char) : Bool := c == ' ' || c == '\t'

/-- JS `String.prototype.trim` on the characters of a line. -/
def trimCh (s : List Char) : List Char :=
  ((s.dropWhile isWs).reverse.dropWhile isWs).reverse

/-- JS `line.search(/\S/)`: index of the first non-whitespace character,
`-1` when the line is all whitespace. -/
def searchNonWs : List Char → Int
  | [] => -1
  | c :: t =>
    if isWs c then
      let r := searchNonWs t
      if r < 0 then -1 else r + 1
    else 0

/-- JS `s.indexOf(c)` (first occurrence, `-1` when absent). -/
def idxOf (c : Char) : List Char → Int
  | [] => -1
  | a :: t =>
    if a == c then 0
    else
      let r := idxOf c t
      if r < 0 then -1 else r + 1

/-- JS `text.split('\n')`. -/
def splitNlCh : List Char → List (List Char)
  | [] => [[]]
  | c :: t =>
    if c == '\n' then [] :: splitNlCh t
    else
      match splitNlCh t with
      | [] => [[c]]
      | l :: ls => (c :: l) :: ls

/-- JS `hay.includes(pat)` (substring containment). -/
def listIncludes (hay pat : List Char) : Bool :=
  if pat.isPrefixOf hay then true
  else
    match hay with
    | [] => false
    | _ :: t => listIncludes t pat

/-- The apostrophe character (written by code point to keep it out of the
source text). -/
def sq : Char := Char.ofNat 39

/-- The double-quote character. -/
def dq : Char := '"'

/-- Digits of a decimal numeral to a natural number. -/
def digitsToNat (l : List Char) : Nat :=
  l.foldl (fun a c => a * 10 + (c.toNat - ('0').toNat)) 0

/-- The regex `/^-?\d+$/` used by `parseValue` for integers. -/
def matchIntPat (s : List Char) : Bool :=
  match s with
  | '-' :: t => !t.isEmpty && t.all Char.isDigit
  | t => !t.isEmpty && t.all Char.isDigit

/-- The regex `/^-?\d+\.\d+$/` used by `parseValue` for decimals. -/
def matchFloatPat (s : List Char) : Bool :=
  let core := match s with | '-' :: t => t | t => t
  let a := core.takeWhile Char.isDigit
  match core.drop a.length with
  | '.' :: b => !a.isEmpty && !b.isEmpty && b.all Char.isDigit
  | _ => false

/-- Value of an integer literal accepted by `matchIntPat`. -/
def intOfLit (s : List Char) : Int :=
  match s with
  | '-' :: t => -(digitsToNat t : Int)
  | t => (digitsToNat t : Int)

/-- Value of a decimal literal accepted by `matchFloatPat`, as an exact
rational (the model of `parseFloat`). -/
def decOfLit (s : List Char) : Rat :=
  let neg := s.take 1 == ['-']
  let core := if neg then s.drop 1 else s
  let a := core.takeWhile Char.isDigit
  let b := core.drop (a.length + 1)
  let q : Rat := (digitsToNat a : Rat) + (digitsToNat b : Rat) / ((10 : Rat) ^ b.length)
  if neg then -q else q

/-- Parse-tree values: JS `null`, booleans, numbers, strings, arrays and
insertion-ordered objects. -/
inductive Value where
  | vnull : Value
  | vbool : Bool → Value
  | vnum : Rat → Value
  | vstr : String → Value
  | varr : List Value → Value
  | vobj : List (String × Value) → Value

mutual

/-- Decidable structural equality of values, by mutual recursion (the
automatic derive handler does not support this nested inductive). -/
def Value.decEqV : (a b : Value) → Decidable (a = b)
  | .vnull, .vnull => isTrue rfl
  | .vbool x, .vbool y =>
    match decEq x y with
    | isTrue h => isTrue (h ▸ rfl)
    | isFalse h => isFalse (fun he => h (by cases he; rfl))
  | .vnum x, .vnum y =>
    match decEq x y with
    | isTrue h => isTrue (h ▸ rfl)
    | isFalse h => isFalse (fun he => h (by cases he; rfl))
  | .vstr x, .vstr y =>
    match decEq x y with
    | isTrue h => isTrue (h ▸ rfl)
    | isFalse h => isFalse (fun he => h (by cases he; rfl))
  | .varr xs, .varr ys =>
    match decEqVList xs ys with
    | isTrue h => isTrue (h ▸ rfl)
    | isFalse h => isFalse (fun he => h (by cases he; rfl))
  | .vobj xs, .vobj ys =>
    match decEqVFields xs ys with
    | isTrue h => isTrue (h ▸ rfl)
    | isFalse h => isFalse (fun he => h (by cases he; rfl))
  | .vnull, .vbool _ => isFalse (fun h => Value.noConfusion h)
  | .vnull, .vnum _ => isFalse (fun h => Value.noConfusion h)
  | .vnull, .vstr _ => isFalse (fun h => Value.noConfusion h)
  | .vnull, .varr _ => isFalse (fun h => Value.noConfusion h)
  | .vnull, .vobj _ => isFalse (fun h => Value.noConfusion h)
  | .vbool _, .vnull => isFalse (fun h => Value.noConfusion h)
  | .vbool _, .vnum _ => isFalse (fun h => Value.noConfusion h)
  | .vbool _, .vstr _ => isFalse (fun h => Value.noConfusion h)
  | .vbool _, .varr _ => isFalse (fun h => Value.noConfusion h)
  | .vbool _, .vobj _ => isFalse (fun h => Value.noConfusion h)
  | .vnum _, .vnull => isFalse (fun h => Value.noConfusion h)
  | .vnum _, .vbool _ => isFalse (fun h => Value.noConfusion h)
  | .vnum _, .vstr _ => isFalse (fun h => Value.noConfusion h)
  | .vnum _, .varr _ => isFalse (fun h => Value.noConfusion h)
  | .vnum _, .vobj _ => isFalse (fun h => Value.noConfusion h)
  | .vstr _, .vnull => isFalse (fun h => Value.noConfusion h)
  | .vstr _, .vbool _ => isFalse (fun h => Value.noConfusion h)
  | .vstr _, .vnum _ => isFalse (fun h => Value.noConfusion h)
  | .vstr _, .varr _ => isFalse (fun h => Value.noConfusion h)
  | .vstr _, .vobj _ => isFalse (fun h => Value.noConfusion h)
  | .varr _, .vnull => isFalse (fun h => Value.noConfusion h)
  | .varr _, .vbool _ => isFalse (fun h => Value.noConfusion h)
  | .varr _, .vnum _ => isFalse (fun h => Value.noConfusion h)
  | .varr _, .vstr _ => isFalse (fun h => Value.noConfusion h)
  | .varr _, .vobj _ => isFalse (fun h => Value.noConfusion h)
  | .vobj _, .vnull => isFalse (fun h => Value.noConfusion h)
  | .vobj _, .vbool _ => isFalse (fun h => Value.noConfusion h)
  | .vobj _, .vnum _ => isFalse (fun h => Value.noConfusion h)
  | .vobj _, .vstr _ => isFalse (fun h => Value.noConfusion h)
  | .vobj _, .varr _ => isFalse (fun h => Value.noConfusion h)

/-- Decidable equality of value lists. -/
def decEqVList : (xs ys : List Value) → Decidable (xs = ys)
  | [], [] => isTrue rfl
  | x :: xs, y :: ys =>
    match Value.decEqV x y, decEqVList xs ys with
    | isTrue h1, isTrue h2 => isTrue (by rw [h1, h2])
    | isFalse h1, _ => isFalse (fun he => h1 (by cases he; rfl))
    | _, isFalse h2 => isFalse (fun he => h2 (by cases he; rfl))
  | [], _ :: _ => isFalse (fun h => List.noConfusion h)
  | _ :: _, [] => isFalse (fun h => List.noConfusion h)

/-- Decidable equality of object field lists. -/
def decEqVFields : (xs ys : List (String × Value)) → Decidable (xs = ys)
  | [], [] => isTrue rfl
  | (k, v) :: xs, (k', v') :: ys =>
    match decEq k k', Value.decEqV v v', decEqVFields xs ys with
    | isTrue h0, isTrue h1, isTrue h2 => isTrue (by rw [h0, h1, h2])
    | isFalse h0, _, _ => isFalse (fun he => h0 (by cases he; rfl))
    | _, isFalse h1, _ => isFalse (fun he => h1 (by cases he; rfl))
    | _, _, isFalse h2 => isFalse (fun he => h2 (by cases he; rfl))
  | [], _ :: _ => isFalse (fun h => List.noConfusion h)
  | _ :: _, [] => isFalse (fun h => List.noConfusion h)

end

instance : DecidableEq Value := Value.decEqV

/-- JS `Array.isArray`. -/
def Value.isArr : Value → Bool
  | .varr _ => true
  | _ => false

/-- JS `typeof v === 'object'` (true for `null`, arrays and objects). -/
def Value.isObjType : Value → Bool
  | .vnull => true
  | .varr _ => true
  | .vobj _ => true
  | _ => false

/-- JS truthiness of a value. -/
def Value.truthy : Value → Bool
  | .vnull => false
  | .vbool b => b
  | .vnum q => !(q == 0)
  | .vstr s => !(s == "")
  | .varr _ => true
  | .vobj _ => true

/-- Truthiness of a possibly-absent property (`undefined` is falsy). -/
def truthyO : Option Value → Bool
  | none => false
  | some v => v.truthy

/-- Lookup in an insertion-ordered object. -/
def objGet (fs : List (String × Value)) (k : String) : Option Value :=
  match fs with
  | [] => none
  | (k', v) :: t => if k' == k then some v else objGet t k

/-- JS object assignment: overwrite in place, else append. -/
def objSet (fs : List (String × Value)) (k : String) (v : Value) :
    List (String × Value) :=
  match fs with
  | [] => [(k, v)]
  | (k', v') :: t => if k' == k then (k', v) :: t else (k', v') :: objSet t k v

/-- A canonical JS array-index key (`"0"`, `"1"`, ..., no leading zeros). -/
def asIndex (k : String) : Option Nat :=
  match k.data with
  | [] => none
  | ['0'] => some 0
  | c :: t =>
    if c.isDigit && c != '0' && t.all Char.isDigit then some (digitsToNat (c :: t))
    else none

/-- JS property read `v[k]` for the shapes the engine reads (object keys
and canonical array indices; array non-index properties are not modelled). -/
def Value.jsGet : Value → String → Option Value
  | .vobj fs, k => objGet fs k
  | .varr xs, k =>
    match asIndex k with
    | some n => xs.get? n
    | none => none
  | _, _ => none

/-- JS `Object.keys`. -/
def Value.jsKeys : Value → List String
  | .vobj fs => fs.map Prod.fst
  | .varr xs => (List.range xs.length).map Nat.repr
  | _ => []

/-- JS `Object.entries`. -/
def Value.jsEntries : Value → List (String × Value)
  | .vobj fs => fs
  | .varr xs => xs.enum.map (fun p => (Nat.repr p.1, p.2))
  | _ => []

/-- JS assignment `target[key] = v` on a container (see the header note on
array targets). -/
def Value.jsSet : Value → String → Value → Value
  | .vobj fs, k, v => .vobj (objSet fs k v)
  | .varr xs, k, v =>
    (match asIndex k with
     | some n =>
       if n < xs.length then .varr (xs.set n v)
       else if n == xs.length then .varr (xs ++ [v])
       else .varr xs
     | none => .varr xs)
  | t, _, _ => t

/-- One step of an access path into a value. -/
inductive Acc where
  | akey : String → Acc
  | aidx : Nat → Acc
deriving DecidableEq

/-- Replace the sub-value at a path (paths always address existing slots
during parsing). -/
def setPath : Value → List Acc → Value → Value
  | _, [], v => v
  | .vobj fs, .akey k :: p, v =>
    .vobj (objSet fs k (setPath ((objGet fs k).getD .vnull) p v))
  | .varr xs, .aidx n :: p, v =>
    .varr (xs.set n (setPath (xs.getD n .vnull) p v))
  | root, _, _ => root

/-- A diagnostic as pushed by the parser and validator.  `severity` is an
`Option` because one parser diagnostic is pushed without a severity field. -/
structure Diag where
  line : Nat
  column : Nat
  message : String
  severity : Option String
  validValues : Option (List String)
  validKeys : Option (List String)
deriving DecidableEq

/-- Diagnostic with only line/column/message/severity. -/
def mkDiag (line column : Nat) (message : String) (severity : Option String) : Diag :=
  ⟨line, column, message, severity, none, none⟩

/-- A parser stack frame: the indent of the line that opened it, the
container being filled, and the slot of that container in the frame below. -/
structure Frame where
  indent : Int
  obj : Value
  path : List Acc
deriving DecidableEq

/-- Write the container of frame `f` back into the slot it occupies in
the frame `g` below it. -/
def mergeInto (f g : Frame) : Frame :=
  Frame.mk g.indent (setPath g.obj f.path f.obj) g.path

/-- Pop stack frames whose indent is `≥ ind`, writing each popped
container back; `f` is the current top frame, `rest` the frames below. -/
def popToAux (f : Frame) (rest : List Frame) (ind : Int) : List Frame :=
  match rest with
  | [] => [f]
  | g :: t =>
    if f.indent ≥ ind then popToAux (mergeInto f g) t ind
    else f :: g :: t

/-- Pop stack frames whose indent is `≥ ind` (the root frame, at indent
`-1`, is never popped), writing each popped container back. -/
def popTo (stk : List Frame) (ind : Int) : List Frame :=
  match stk with
  | [] => []
  | f :: rest => popToAux f rest ind

/-- Write every open frame back, starting from top frame `f`. -/
def flushAux (f : Frame) (rest : List Frame) : Value :=
  match rest with
  | [] => f.obj
  | g :: t => flushAux (mergeInto f g) t

/-- Write every open frame back and return the root container. -/
def flushAll (stk : List Frame) : Value :=
  match stk with
  | [] => .vnull
  | f :: rest => flushAux f rest

/-- Message of the tab diagnostic. -/
def tabMsg : String := "Tabs are not allowed in YAML, use spaces"

/-- Message of the inconsistent-indentation diagnostic. -/
def multMsg (u i : Nat) : String :=
  "Inconsistent indentation: expected multiple of " ++ Nat.repr u
    ++ " spaces, got " ++ Nat.repr i

/-- Message of the indentation-jump diagnostic. -/
def jumpMsg (d u : Nat) : String :=
  "Indentation increased by " ++ Nat.repr d ++ " spaces, expected at most "
    ++ Nat.repr u

/-- Message of the list-parent-mismatch diagnostic. -/
def mismatchMsg : String :=
  "List item found but parent is not a list. Check indentation."

/-- Message of the invalid-syntax diagnostic (pushed without a severity). -/
def invalidMsg : String := "Invalid YAML syntax"

/-- The parser's running state: the frame stack (top first, root last),
the accumulated diagnostics, the detected indentation unit, the previous
content line's indent, and the number of lines consumed so far. -/
structure PState where
  stack : List Frame
  errors : List Diag
  indentUnit : Nat
  lastIndent : Nat
  lineNo : Nat
deriving DecidableEq

/-- `parseValue`: scalar literal parsing (booleans and nulls by fixed
spellings, integer and decimal literals, quoted strings unwrapped without
unescaping, everything else verbatim). -/
def parseValue (s : List Char) : Value :=
  if s == ("true").data || s == ("True").data || s == ("TRUE").data then .vbool true
  else if s == ("false").data || s == ("False").data || s == ("FALSE").data then .vbool false
  else if s == ("null").data || s == ("Null").data || s == ("NULL").data || s == ("~").data then .vnull
  else if matchIntPat s then .vnum (intOfLit s : Rat)
  else if matchFloatPat s then .vnum (decOfLit s)
  else if (s.take 1 == [dq] && s.getLast? == some dq)
       || (s.take 1 == [sq] && s.getLast? == some sq) then
    .vstr (String.mk (s.drop 1).dropLast)
  else .vstr (String.mk s)

/-- Lookahead used for `key:` lines: indent of the next content line and
whether it starts with a list marker (`(-1, false)` when there is none). -/
def lookahead : List (List Char) → Int × Bool
  | [] => (-1, false)
  | l :: t =>
    let tr := trimCh l
    if tr == [] || tr.take 1 == ['#'] then lookahead t
    else (searchNonWs l, tr.take 1 == ['-'])

/-- The indentation unit after seeing a content line at `indent` (the
first non-zero indent of the document establishes it). -/
def indentUnitOf (st : PState) (indent : Nat) : Nat :=
  if indent > 0 && st.indentUnit == 0 then indent else st.indentUnit

/-- The indentation diagnostics of one content line (inconsistent
multiple, then jump, both against the updated unit).  In the source the
jump check also tests `lastIndent >= 0`, which always holds. -/
def indentChecks (st : PState) (indent : Nat) (lineNum : Nat) : List Diag :=
  if indentUnitOf st indent > 0 && indent > 0 then
    (if indent % indentUnitOf st indent != 0 then
       [mkDiag lineNum 1 (multMsg (indentUnitOf st indent) indent) (some ("error"))]
     else [])
    ++ (if indent > st.lastIndent + indentUnitOf st indent then
          [mkDiag lineNum 1 (jumpMsg (indent - st.lastIndent) (indentUnitOf st indent)) (some ("error"))]
        else [])
  else []

/-- Structural action of a `- ` list-item line on the popped stack (the
enclosing-container mismatch has already been handled): returns the new
stack.  `par` is the top frame, `below` the rest. -/
def listItemStep (indent : Nat) (value : List Char) (par : Frame)
    (below : List Frame) : List Frame :=
  match par.obj with
  | .varr xs =>
    let isQuoted := (value.take 1 == [dq] && value.getLast? == some dq)
                 || (value.take 1 == [sq] && value.getLast? == some sq)
    if value == [] || (!isQuoted && value.contains ':') then
      if value == [] then
        Frame.mk indent (.vobj []) [.aidx xs.length]
          :: Frame.mk par.indent (.varr (xs ++ [.vobj []])) par.path :: below
      else
        let cIdx := (idxOf ':' value).toNat
        let key := String.mk (trimCh (value.take cIdx))
        let val := trimCh (value.drop (cIdx + 1))
        if val == [] then
          Frame.mk indent (.vobj []) [.aidx xs.length, .akey key]
            :: Frame.mk par.indent (.varr (xs ++ [.vobj [(key, .vobj [])]])) par.path :: below
        else
          Frame.mk par.indent (.varr (xs ++ [.vobj [(key, parseValue val)]])) par.path :: below
    else
      Frame.mk par.indent (.varr (xs ++ [parseValue value])) par.path :: below
  | _ => par :: below

/-- Structural action of a `key: value` line on the popped stack. -/
def keyValueStep (indent : Nat) (trimmed : List Char) (rest : List (List Char))
    (par : Frame) (below : List Frame) : List Frame :=
  let cIdx := (idxOf ':' trimmed).toNat
  let key := String.mk (trimCh (trimmed.take cIdx))
  let valueStr := trimCh (trimmed.drop (cIdx + 1))
  let la := lookahead rest
  if valueStr == [] || valueStr == ("|").data || valueStr == (">").data
     || valueStr == ("|-").data || valueStr == (">-").data then
    if la.1 > (indent : Int) then
      if la.2 then
        Frame.mk indent (.varr []) [.akey key]
          :: Frame.mk par.indent (par.obj.jsSet key (.varr [])) par.path :: below
      else
        Frame.mk indent (.vobj []) [.akey key]
          :: Frame.mk par.indent (par.obj.jsSet key (.vobj [])) par.path :: below
    else
      Frame.mk par.indent
        (par.obj.jsSet key (if valueStr == [] then .vnull else .vstr ""))
        par.path :: below
  else if valueStr == ("[]").data then
    Frame.mk par.indent (par.obj.jsSet key (.varr [])) par.path :: below
  else if valueStr == ("{}").data then
    Frame.mk par.indent (par.obj.jsSet key (.vobj [])) par.path :: below
  else
    Frame.mk par.indent (par.obj.jsSet key (parseValue valueStr)) par.path :: below

/-- The structural action of one line on the frame stack (the popping
and the list-item / bare-dash / key-value branching of the source's
loop body; `rest` is used only for the key-value lookahead). -/
def stepStack (line : List Char) (rest : List (List Char)) (stk : List Frame) :
    List Frame :=
  let trimmed := trimCh line
  if trimmed == [] || trimmed.take 1 == ['#'] then stk
  else
    let indentI := searchNonWs line
    if indentI < 0 then stk
    else
      let indent := indentI.toNat
      match popTo stk (indent : Int) with
      | [] => []
      | par :: below =>
        if trimmed.take 2 == ['-', ' '] then
          listItemStep indent (trimCh (trimmed.drop 2)) par below
        else if trimmed == ['-'] then
          match par.obj with
          | .varr xs =>
            Frame.mk indent (.vobj []) [.aidx xs.length]
              :: Frame.mk par.indent (.varr (xs ++ [.vobj []])) par.path :: below
          | _ => par :: below
        else if idxOf ':' trimmed > 0 then
          keyValueStep indent trimmed rest par below
        else par :: below

/-- The diagnostics one line appends (tab check, indentation checks,
list-parent mismatch, invalid syntax, in the source's push order; the
lookahead plays no part in them). -/
def stepErrs (line : List Char) (st : PState) : List Diag :=
  let lineNum := st.lineNo + 1
  let trimmed := trimCh line
  if trimmed == [] || trimmed.take 1 == ['#'] then []
  else
    let indentI := searchNonWs line
    if indentI < 0 then []
    else
      let indent := indentI.toNat
      let tabErrs :=
        if line.contains '\t' then
          [mkDiag lineNum ((idxOf '\t' line).toNat + 1) tabMsg (some ("error"))]
        else []
      match popTo st.stack (indent : Int) with
      | [] => []
      | par :: _ =>
        let mismatchErrs :=
          if trimmed.take 1 == ['-'] && !par.obj.isArr then
            [mkDiag lineNum 1 mismatchMsg (some ("error"))]
          else []
        tabErrs ++ indentChecks st indent lineNum ++ mismatchErrs
          ++ (if trimmed.take 2 == ['-', ' '] then []
              else if trimmed == ['-'] then []
              else if idxOf ':' trimmed > 0 then []
              else if idxOf ':' trimmed == -1 && !(trimmed.take 1 == ['-']) then
                [⟨lineNum, 1, invalidMsg, none, none, none⟩]
              else [])

/-- The indentation-unit bookkeeping of one line (unchanged on skipped
lines, else the unit after `indentChecks`). -/
def stepUnit (line : List Char) (st : PState) : Nat :=
  let trimmed := trimCh line
  if trimmed == [] || trimmed.take 1 == ['#'] then st.indentUnit
  else
    let indentI := searchNonWs line
    if indentI < 0 then st.indentUnit
    else indentUnitOf st indentI.toNat

/-- The `lastIndent` bookkeeping of one line (unchanged on skipped
lines, else the line's indent). -/
def stepLast (line : List Char) (st : PState) : Nat :=
  let trimmed := trimCh line
  if trimmed == [] || trimmed.take 1 == ['#'] then st.lastIndent
  else
    let indentI := searchNonWs line
    if indentI < 0 then st.lastIndent
    else indentI.toNat

/-- Process one line of input, as the five independent components of the
source's loop body: the structural stack action, the appended
diagnostics, the indentation bookkeeping, and the line counter (`rest`
is the list of remaining lines, used only for lookahead). -/
def step (line : List Char) (rest : List (List Char)) (st : PState) : PState :=
  ⟨stepStack line rest st.stack, st.errors ++ stepErrs line st,
   stepUnit line st, stepLast line st, st.lineNo + 1⟩

/-- Run the parser over a list of lines. -/
def runP : List (List Char) → PState → PState
  | [], st => st
  | l :: rest, st => runP rest (step l rest st)

/-- Result of `parse`: the tree and the structural diagnostics. -/
structure ParseResult where
  data : Value
  errors : List Diag
deriving DecidableEq

/-- The initial parser state. -/
def initState : PState := ⟨[Frame.mk (-1) (.vobj []) []], [], 0, 0, 0⟩

/-- `YamlParser.parse`. -/
def parse (text : String) : ParseResult :=
  let st := runP (splitNlCh text.data) initState
  ⟨flushAll st.stack, st.errors⟩

/-- Smallest exponent `k ≤ 40` with `den ∣ 10^k` (every denominator the
parser can produce is of this shape; `0` as a fallback). -/
def pow10Exp (den : Nat) : Nat :=
  (((List.range 41).find? (fun k => 10 ^ k % den == 0))).getD 0

/-- Left-pad a numeral with zeros to width `k`. -/
def padZeros (s : List Char) (k : Nat) : List Char :=
  List.replicate (k - s.length) '0' ++ s

/-- JS `Number.prototype.toString` on the model's exact rationals:
integers print as integers, and a decimal prints its shortest exact
decimal expansion (the shortest-round-trip rule of JS doubles, which
agrees with this on the engine's decimal literals). -/
def numToString (q : Rat) : String :=
  if q.den == 1 then Int.repr q.num
  else
    let k := pow10Exp q.den
    let scaled := q.num.natAbs * 10 ^ k / q.den
    let ip := scaled / 10 ^ k
    let fr := scaled % 10 ^ k
    (if q.num < 0 then "-" else "") ++ Nat.repr ip ++ "."
      ++ String.mk (padZeros (Nat.repr fr).data k)

mutual

/-- JS `String(v)` / `.toString()` coercion as used by the engine. -/
def jsToString : Value → String
  | .vnull => "null"
  | .vbool b => if b then "true" else "false"
  | .vnum q => numToString q
  | .vstr s => s
  | .varr xs => jsJoinComma xs
  | .vobj _ => "[object Object]"

/-- `Array.prototype.join(',')` on elements coerced with `String`
(`null` elements become the empty string). -/
def jsJoinComma : List Value → String
  | [] => ""
  | [.vnull] => ""
  | [x] => jsToString x
  | .vnull :: y :: t => "," ++ jsJoinComma (y :: t)
  | x :: y :: t => jsToString x ++ "," ++ jsJoinComma (y :: t)

end

/-- JS `s.replace(/"/g, '\\"')`. -/
def escapeDq (s : List Char) : List Char :=
  s.flatMap (fun c => if c == dq then ['\\', dq] else [c])

/-- `YamlParser.valueToString`: scalar rendering for serialization;
strings containing a colon, hash or apostrophe, or with a leading or
trailing space, are double-quoted with inner double quotes escaped. -/
def valueToString : Value → String
  | .vnull => "null"
  | .vbool b => if b then "true" else "false"
  | .vnum q => numToString q
  | .vstr s =>
    if s.data.contains ':' || s.data.contains '#' || s.data.contains sq
       || s.data.take 1 == [' '] || s.data.getLast? == some ' ' then
      String.mk ([dq] ++ escapeDq s.data ++ [dq])
    else s
  | v => jsToString v

/-- `'  '.repeat(indent)`. -/
def spacesN (indent : Nat) : String := String.mk (List.replicate (2 * indent) ' ')

mutual

/-- `YamlParser.stringify`: serialize a tree back to text.  Objects emit
`key:` with newline-indented children for non-empty objects and for
arrays, otherwise `key: literal`; arrays emit one `-` (or `- literal`)
per element. -/
def stringify (v : Value) (indent : Nat) : String :=
  match v with
  | .varr items => stringifyItems items indent
  | .vobj fs => stringifyFields fs indent
  | _ => ""

/-- Array part of `stringify`. -/
def stringifyItems (items : List Value) (indent : Nat) : String :=
  match items with
  | [] => ""
  | item :: t =>
    (match item with
     | .varr xs => spacesN indent ++ "-\n" ++ stringify (.varr xs) (indent + 1)
     | .vobj fs => spacesN indent ++ "-\n" ++ stringify (.vobj fs) (indent + 1)
     | x => spacesN indent ++ "- " ++ valueToString x ++ "\n")
      ++ stringifyItems t indent

/-- Object part of `stringify`. -/
def stringifyFields (fs : List (String × Value)) (indent : Nat) : String :=
  match fs with
  | [] => ""
  | (key, value) :: t =>
    (match value with
     | .vobj gs =>
       if gs.length > 0 then
         spacesN indent ++ key ++ ":\n" ++ stringify (.vobj gs) (indent + 1)
       else
         spacesN indent ++ key ++ ": " ++ valueToString (.vobj gs) ++ "\n"
     | .varr xs => spacesN indent ++ key ++ ":\n" ++ stringify (.varr xs) (indent + 1)
     | x => spacesN indent ++ key ++ ": " ++ valueToString x ++ "\n")
      ++ stringifyFields t indent

end

/-- A schema tree node: declared type(s), description, enumerated values,
children (key `"*"` is the wildcard child), example, `required` flag and
the extension marker.  A JS `type:` of a single string is modelled as a
one-element list. -/
inductive SchemaNode where
  | mk : (ty : List String) → (desc : Option String) →
      (vals : Option (List String)) →
      (ch : Option (List (String × SchemaNode))) →
      (ex : Option String) → (req : Option Bool) →
      (isX : Bool) → SchemaNode

/-- The `values` field of a schema node. -/
def SchemaNode.values : SchemaNode → Option (List String)
  | .mk _ _ v _ _ _ _ => v

/-- The `children` field of a schema node. -/
def SchemaNode.children : SchemaNode → Option (List (String × SchemaNode))
  | .mk _ _ _ c _ _ _ => c

/-- The `description` field of a schema node. -/
def SchemaNode.descr : SchemaNode → Option String
  | .mk _ d _ _ _ _ _ => d

/-- The `example` field of a schema node. -/
def SchemaNode.example : SchemaNode → Option String
  | .mk _ _ _ _ e _ _ => e

/-- The `required` field of a schema node. -/
def SchemaNode.requiredF : SchemaNode → Option Bool
  | .mk _ _ _ _ _ r _ => r

/-- The `isExtension` field of a schema node. -/
def SchemaNode.isExt : SchemaNode → Bool
  | .mk _ _ _ _ _ _ x => x

/-- Node with type and description only. -/
def sN (ty : List String) (d : String) : SchemaNode :=
  .mk ty (some d) none none none none false

/-- Node with type, description and example. -/
def sNe (ty : List String) (d e : String) : SchemaNode :=
  .mk ty (some d) none none (some e) none false

/-- Node with type, description and enumerated values. -/
def sNv (ty : List String) (d : String) (vs : List String) : SchemaNode :=
  .mk ty (some d) (some vs) none none none false

/-- Node with type and enumerated values, no description. -/
def sNn (ty : List String) (vs : List String) : SchemaNode :=
  .mk ty none (some vs) none none none false

/-- Node with type, description and children. -/
def sNc (ty : List String) (d : String) (ch : List (String × SchemaNode)) : SchemaNode :=
  .mk ty (some d) none (some ch) none none false

/-- Node with type and children, no description. -/
def sNcn (ty : List String) (ch : List (String × SchemaNode)) : SchemaNode :=
  .mk ty none none (some ch) none none false

/-- The capability list shared by `cap_add` and `cap_drop`. -/
def capValues : List String :=
  ["ALL", "AUDIT_CONTROL", "AUDIT_WRITE", "BLOCK_SUSPEND", "CHOWN",
   "DAC_OVERRIDE", "DAC_READ_SEARCH", "FOWNER", "FSETID", "IPC_LOCK",
   "IPC_OWNER", "KILL", "LEASE", "LINUX_IMMUTABLE", "MAC_ADMIN",
   "MAC_OVERRIDE", "MKNOD", "NET_ADMIN", "NET_BIND_SERVICE",
   "NET_BROADCAST", "NET_RAW", "SETFCAP", "SETGID", "SETPCAP", "SETUID",
   "SYS_ADMIN", "SYS_BOOT", "SYS_CHROOT", "SYS_MODULE", "SYS_NICE",
   "SYS_PACCT", "SYS_PTRACE", "SYS_RAWIO", "SYS_RESOURCE", "SYS_TIME",
   "SYS_TTY_CONFIG", "SYSLOG", "WAKE_ALARM"]

/-- `deploy` subtree of the service schema. -/
def deploySchema : SchemaNode :=
  sNc ["object"] "Deployment and running configuration (Swarm mode)"
    [("mode", sNv ["string"] "Replication mode" ["replicated", "global"]),
     ("replicas", sN ["number"] "Number of containers to run (only for replicated mode)"),
     ("endpoint_mode", sNv ["string"] "Service discovery mode" ["vip", "dnsrr"]),
     ("labels", sN ["object", "array"] "Labels for the service (not containers). Can be object or array of strings"),
     ("placement", sNc ["object"] "Placement constraints and preferences"
       [("constraints", sNe ["array"] "Placement constraints" "[\"node.role == manager\"]"),
        ("preferences", sN ["array"] "Placement preferences"),
        ("max_replicas_per_node", sN ["number"] "Max replicas per node")]),
     ("resources", sNc ["object"] "Resource constraints"
       [("limits", sNc ["object"] "Hard resource limits"
          [("cpus", sN ["string"] "CPU limit (e.g., \"0.5\")"),
           ("memory", sN ["string"] "Memory limit (e.g., \"512M\")"),
           ("pids", sN ["number"] "Process ID limit")]),
        ("reservations", sNc ["object"] "Resource reservations"
          [("cpus", sN ["string"] "CPU reservation"),
           ("memory", sN ["string"] "Memory reservation"),
           ("generic_resources", sN ["array"] "Generic resources")])]),
     ("restart_policy", sNc ["object"] "Restart policy for containers"
       [("condition", sNv ["string"] "When to restart" ["none", "on-failure", "any"]),
        ("delay", sN ["string"] "Delay between restarts (e.g., \"5s\")"),
        ("max_attempts", sN ["number"] "Maximum restart attempts"),
        ("window", sN ["string"] "Time window for restart evaluation")]),
     ("rollback_config", sNc ["object"] "Rollback configuration"
       [("parallelism", sN ["number"] "Containers to rollback at once"),
        ("delay", sN ["string"] "Delay between rollback batches"),
        ("failure_action", sNn ["string"] ["continue", "pause"]),
        ("monitor", sN ["string"] "Monitor duration after rollback"),
        ("max_failure_ratio", sN ["number"] "Failure rate to tolerate"),
        ("order", sNn ["string"] ["start-first", "stop-first"])]),
     ("update_config", sNc ["object"] "Update configuration"
       [("parallelism", sN ["number"] "Containers to update at once"),
        ("delay", sN ["string"] "Delay between updates"),
        ("failure_action", sNn ["string"] ["continue", "pause", "rollback"]),
        ("monitor", sN ["string"] "Monitor duration after update"),
        ("max_failure_ratio", sN ["number"] "Failure rate to tolerate"),
        ("order", sNn ["string"] ["start-first", "stop-first"])])]

/-- Children of the per-service wildcard schema node, in source order. -/
def serviceChildren : List (String × SchemaNode) :=
  [("image", sNe ["string"] "Specify the image to start the container from. Can be a repository/tag or image ID" "nginx:latest, redis:6.2-alpine, myregistry.com/myimage:v1.0"),
   ("build", sNc ["string", "object"] "Configuration options applied at build time. Can be a path to build context or an object"
     [("context", sN ["string"] "Path to directory containing Dockerfile or git repository URL"),
      ("dockerfile", sN ["string"] "Alternate Dockerfile name"),
      ("args", sN ["object"] "Build arguments (ARG values)"),
      ("cache_from", sN ["array"] "Images to use as cache sources"),
      ("labels", sN ["object"] "Labels to add to the built image"),
      ("network", sNv ["string"] "Network mode during build" ["host", "none", "default"]),
      ("shm_size", sN ["string"] "Size of /dev/shm (e.g., \"2gb\")"),
      ("target", sN ["string"] "Build stage to target in multi-stage Dockerfile")]),
   ("command", sNe ["string", "array"] "Override the default command. Can be a string or list" "[\"python\", \"app.py\"] or \"python app.py\""),
   ("entrypoint", sNe ["string", "array"] "Override the default entrypoint" "[\"/entrypoint.sh\"] or \"/entrypoint.sh\""),
   ("container_name", sN ["string"] "Custom container name (not recommended for Swarm mode)"),
   ("depends_on", sNe ["array", "object"] "Express dependency between services. Services start in dependency order" "[\"db\", \"redis\"]"),
   ("deploy", deploySchema),
   ("dns", sN ["string", "array"] "Custom DNS servers"),
   ("dns_search", sN ["string", "array"] "Custom DNS search domains"),
   ("environment", sNe ["object", "array"] "Environment variables. Can be an object or array of KEY=value strings" "NODE_ENV: production or - NODE_ENV=production"),
   ("env_file", sNe ["string", "array"] "Load environment variables from file(s)" ".env or [\".env\", \".env.local\"]"),
   ("expose", sNe ["array"] "Expose ports without publishing to host (internal only)" "[\"3000\", \"8000\"]"),
   ("external_links", sN ["array"] "Link to containers outside this compose file"),
   ("extra_hosts", sNe ["array"] "Add hostname mappings to /etc/hosts" "[\"host1:192.168.1.1\"]"),
   ("healthcheck", sNc ["object"] "Container health check configuration"
     [("test", sNe ["string", "array"] "Command to run for health check" "[\"CMD\", \"curl\", \"-f\", \"http://localhost/health\"]"),
      ("interval", sNe ["string"] "Time between health checks" "30s"),
      ("timeout", sNe ["string"] "Timeout for health check" "10s"),
      ("retries", sN ["number"] "Consecutive failures before unhealthy"),
      ("start_period", sNe ["string"] "Start period for container initialization" "40s"),
      ("disable", sN ["boolean"] "Disable the healthcheck")]),
   ("hostname", sN ["string"] "Container hostname"),
   ("init", sN ["boolean"] "Run an init process inside the container"),
   ("labels", sN ["object", "array"] "Container labels"),
   ("links", sN ["array"] "Link to other services (legacy, use networks instead)"),
   ("logging", sNc ["object"] "Logging configuration"
     [("driver", sNv ["string"] "Logging driver" ["json-file", "syslog", "journald", "gelf", "fluentd", "awslogs", "splunk", "none"]),
      ("options", sN ["object"] "Driver-specific options")]),
   ("network_mode", sNv ["string"] "Network mode" ["bridge", "host", "none", "service:[service name]", "container:[container name/id]"]),
   ("networks", sNc ["array", "object"] "Networks to join. Can be a list or object with network-specific config"
     [("*", sNcn ["object"]
        [("aliases", sN ["array"] "Network aliases for this service"),
         ("ipv4_address", sN ["string"] "Static IPv4 address"),
         ("ipv6_address", sN ["string"] "Static IPv6 address")])]),
   ("pid", sNv ["string"] "PID mode" ["host", "service:[service name]"]),
   ("ports", sNe ["array"] "Expose ports. Format: [HOST:]CONTAINER[/PROTOCOL]" "[\"80:80\", \"443:443\", \"8080:80/tcp\"]"),
   ("privileged", sN ["boolean"] "Run container in privileged mode"),
   ("read_only", sN ["boolean"] "Mount container root filesystem as read-only"),
   ("restart", sNv ["string"] "Restart policy (ignored in Swarm mode, use deploy.restart_policy)" ["no", "always", "on-failure", "unless-stopped"]),
   ("secrets", sNe ["array"] "Secrets to mount in the container" "[\"my_secret\"]"),
   ("security_opt", sN ["array"] "Security options"),
   ("shm_size", sNe ["string"] "Size of /dev/shm" "64M"),
   ("stdin_open", sN ["boolean"] "Keep STDIN open (equivalent to docker run -i)"),
   ("stop_grace_period", sNe ["string"] "Time to wait before force-killing container" "10s"),
   ("stop_signal", sNe ["string"] "Signal to stop the container" "SIGTERM"),
   ("sysctls", sN ["object", "array"] "Kernel parameters to set"),
   ("tmpfs", sN ["string", "array"] "Mount temporary filesystem"),
   ("tty", sN ["boolean"] "Allocate pseudo-TTY (equivalent to docker run -t)"),
   ("ulimits", sNc ["object"] "Override default ulimits"
     [("nproc", sN ["number", "object"] "Max number of processes"),
      ("nofile", sN ["number", "object"] "Max number of open files")]),
   ("user", sNe ["string"] "User to run as (UID:GID)" "1000:1000"),
   ("userns_mode", sNv ["string"] "User namespace mode" ["host"]),
   ("volumes", sNe ["array"] "Mount volumes. Format: [SOURCE:]TARGET[:OPTIONS]" "[\"./data:/app/data:ro\", \"logs:/var/log\"]"),
   ("working_dir", sN ["string"] "Working directory inside the container"),
   ("configs", sNc ["array"] "Configs to mount (Swarm mode)"
     [("*", sNcn ["object"]
        [("source", sN ["string"] "Config name"),
         ("target", sN ["string"] "Mount path in container"),
         ("uid", sN ["string"] "Owner UID"),
         ("gid", sN ["string"] "Owner GID"),
         ("mode", sNe ["number"] "File mode (octal)" "0440")])]),
   ("cap_add", sNv ["array"] "Add container capabilities" capValues),
   ("cap_drop", sNv ["array"] "Drop container capabilities" capValues),
   ("cgroup_parent", sN ["string"] "Parent cgroup for the container"),
   ("devices", sNe ["array"] "Device mappings" "[\"/dev/ttyUSB0:/dev/ttyUSB0\"]"),
   ("domainname", sN ["string"] "Container domain name"),
   ("ipc", sNv ["string"] "IPC mode" ["host", "private", "shareable", "service:[service name]", "container:[container name/id]"]),
   ("isolation", sNv ["string"] "Container isolation technology (Windows only)" ["default", "process", "hyperv"]),
   ("mac_address", sN ["string"] "Container MAC address"),
   ("platform", sNe ["string"] "Target platform" "linux/amd64"),
   ("profiles", sN ["array"] "Profiles this service belongs to"),
   ("pull_policy", sNv ["string"] "Image pull policy" ["always", "never", "missing", "build"]),
   ("runtime", sN ["string"] "Runtime to use (e.g., nvidia)"),
   ("scale", sN ["number"] "Number of containers (deprecated, use deploy.replicas)"),
   ("storage_opt", sN ["object"] "Storage driver options")]

/-- The per-service wildcard schema node (`services.children['*']`). -/
def serviceStarSchema : SchemaNode :=
  sNc ["object"] "Service definition" serviceChildren

/-- The per-network wildcard schema node. -/
def networkStarSchema : SchemaNode :=
  sNc ["object"] "Network definition"
    [("driver", sNv ["string"] "Network driver" ["bridge", "overlay", "host", "none", "macvlan", "ipvlan"]),
     ("driver_opts", sN ["object"] "Driver-specific options"),
     ("attachable", sN ["boolean"] "Allow standalone containers to attach (overlay only)"),
     ("enable_ipv6", sN ["boolean"] "Enable IPv6 networking"),
     ("external", sNc ["boolean", "object"] "Network is managed outside this Compose file"
       [("name", sN ["string"] "External network name")]),
     ("internal", sN ["boolean"] "Restrict external access to the network"),
     ("ipam", sNc ["object"] "IP Address Management configuration"
       [("driver", sNv ["string"] "IPAM driver" ["default"]),
        ("config", sNc ["array"] "IPAM configuration blocks"
          [("*", sNcn ["object"]
             [("subnet", sNe ["string"] "Subnet in CIDR format" "172.28.0.0/16"),
              ("ip_range", sN ["string"] "IP range for allocation"),
              ("gateway", sN ["string"] "Gateway IP address"),
              ("aux_addresses", sN ["object"] "Auxiliary addresses")])]),
        ("options", sN ["object"] "Driver-specific options")]),
     ("labels", sN ["object", "array"] "Network labels"),
     ("name", sN ["string"] "Custom name for the network")]

/-- The per-volume wildcard schema node. -/
def volumeStarSchema : SchemaNode :=
  sNc ["object", "null"] "Volume definition (null for default options)"
    [("driver", sNv ["string"] "Volume driver" ["local", "nfs", "cifs"]),
     ("driver_opts", sN ["object"] "Driver-specific options"),
     ("external", sNc ["boolean", "object"] "Volume is managed outside this Compose file"
       [("name", sN ["string"] "External volume name")]),
     ("labels", sN ["object", "array"] "Volume labels"),
     ("name", sN ["string"] "Custom name for the volume")]

/-- The per-config wildcard schema node. -/
def configStarSchema : SchemaNode :=
  sNc ["object"] "Config definition"
    [("file", sN ["string"] "Path to config file"),
     ("external", sNc ["boolean", "object"] "Config is managed outside this Compose file"
       [("name", sN ["string"] "External config name")]),
     ("name", sN ["string"] "Custom name for the config"),
     ("template_driver", sN ["string"] "Template driver for config")]

/-- The per-secret wildcard schema node. -/
def secretStarSchema : SchemaNode :=
  sNc ["object"] "Secret definition"
    [("file", sN ["string"] "Path to secret file"),
     ("external", sNc ["boolean", "object"] "Secret is managed outside this Compose file"
       [("name", sN ["string"] "External secret name")]),
     ("name", sN ["string"] "Custom name for the secret"),
     ("template_driver", sN ["string"] "Template driver for secret")]

/-- The accepted `version` values. -/
def versionValues : List String :=
  ["3", "3.0", "3.1", "3.2", "3.3", "3.4", "3.5", "3.6", "3.7", "3.8", "3.9"]

/-- The top-level Docker Compose schema table (`DockerComposeSchema`): an
insertion-ordered map from top-level key to schema node. -/
def DockerComposeSchema : List (String × SchemaNode) :=
  [("version", .mk ["string"] (some "Specifies the Compose file format version")
      (some versionValues) none (some "\"3.8\"") (some false) false),
   ("services", sNc ["object"] "Define the services (containers) that make up your application"
      [("*", serviceStarSchema)]),
   ("networks", sNc ["object"] "Define networks for services to connect to"
      [("*", networkStarSchema)]),
   ("volumes", sNc ["object"] "Define named volumes for data persistence"
      [("*", volumeStarSchema)]),
   ("configs", sNc ["object"] "Define configurations for services (Swarm mode)"
      [("*", configStarSchema)]),
   ("secrets", sNc ["object"] "Define secrets for services (Swarm mode)"
      [("*", secretStarSchema)]),
   ("x", .mk ["any"] (some "Extension fields. Any key starting with \"x-\" can contain custom data")
      none none none none true)]

/-- Lookup in an insertion-ordered association list (JS property access
on a plain-object map). -/
def alGet {α : Type} : List (String × α) → String → Option α
  | [], _ => none
  | (k', v) :: t, k => if k' == k then some v else alGet t k

/-- `DockerComposeValidator.freeFormKeys`. -/
def freeFormKeys : List String :=
  ["driver_opts", "options", "labels", "args", "environment",
   "sysctls", "extra_hosts", "storage_opt", "aux_addresses"]

/-- `DockerComposeValidator.serviceOnlyKeys`. -/
def serviceOnlyKeys : List String :=
  ["image", "build", "command", "entrypoint", "container_name",
   "depends_on", "deploy", "ports", "expose", "volumes", "environment",
   "env_file", "healthcheck", "logging", "networks", "restart",
   "secrets", "configs", "labels", "working_dir", "user", "privileged",
   "cap_add", "cap_drop", "devices", "dns", "dns_search", "tmpfs",
   "hostname", "domainname", "shm_size", "stop_grace_period", "stop_signal",
   "stdin_open", "tty", "ulimits", "init", "read_only", "pid", "ipc",
   "security_opt", "sysctls", "userns_mode", "isolation", "platform"]

/-- `DockerComposeValidator.deployOnlyKeys`. -/
def deployOnlyKeys : List String :=
  ["mode", "replicas", "placement", "resources", "restart_policy",
   "update_config", "rollback_config", "endpoint_mode"]

/-- One line matched against the (regex-escaped, hence literal) pattern
`KEY` followed by optional whitespace and a colon. -/
def keyColon (key s : List Char) : Bool :=
  key.isPrefixOf s && ((s.drop key.length).dropWhile isWs).take 1 == [':']

/-- `findKeyLine`'s regex `^\s*-?\s*KEY\s*:` tested against one line. -/
def matchKeyPat (key line : List Char) : Bool :=
  let rest := line.dropWhile isWs
  keyColon key rest
    || (match rest with
        | '-' :: r => keyColon key (r.dropWhile isWs)
        | _ => false)

/-- Scan lines from 1-based position bookkeeping `i`, returning the
1-based line of the first match. -/
def findKeyAux (key : List Char) : List (List Char) → Nat → Option Nat
  | [], _ => none
  | l :: t, i => if matchKeyPat key l then some (i + 1) else findKeyAux key t (i + 1)

/-- `DockerComposeValidator.findKeyLine`: first line from `startLine`
(0-based) whose key lexically matches, 1-based; `startLine + 1` when no
line matches. -/
def findKeyLine (lines : List (List Char)) (key : String) (startLine : Nat) : Nat :=
  (findKeyAux key.data (lines.drop startLine) startLine).getD (startLine + 1)

/-- JS `s.startsWith(pre)` on whole strings. -/
def startsWithS (s pre : String) : Bool := pre.data.isPrefixOf s.data

/-- Message of the missing image/build diagnostic. -/
def missingMsg (serviceName : String) : String :=
  "Service \"" ++ serviceName ++ "\" must have either \"image\" or \"build\" defined"

/-- Message of the invalid enum value diagnostic. -/
def invalidValueMsg (config key : String) : String :=
  "Invalid value \"" ++ config ++ "\" for \"" ++ key ++ "\""

/-- Message of the unknown nested key diagnostic. -/
def unknownNestedMsg (subKey context key : String) : String :=
  "Unknown key: \"" ++ subKey ++ "\" in " ++ context ++ "." ++ key

/-- The enum-value check of `validateNestedConfig` on a string value:
a warning unless the string equals an enum entry or starts with some
entry's text before its first `[`. -/
def enumCheck (s : String) (key : String) (vals : Option (List String))
    (lines : List (List Char)) : List Diag :=
  match vals with
  | some vs =>
    if !(vs.contains s)
       && !(vs.any (fun v => (v.data.takeWhile (fun c => c != '[')).isPrefixOf s.data)) then
      [⟨findKeyLine lines key 0, 1, invalidValueMsg s key, some ("warning"), some vs, none⟩]
    else []
  | none => []

mutual

/-- `DockerComposeValidator.validateNestedConfig`: enum-value check on
string values against the node's `values` (exact membership or a prefix
match against each entry's text before its first `[`), then recursion
into object values through the node's children (wildcard `"*"`
fallback), in source order.  Returns the diagnostics it pushes.  The
source's early returns (`null` and array values, free-form keys) and
its two `typeof` guards are specialized per value constructor here so
the recursion stays structural. -/
def validateNestedConfig (config : Value) (key : String) (schema : SchemaNode)
    (lines : List (List Char)) (context : String) : List Diag :=
  match config with
  | .vnull => []
  | .varr _ => []
  | .vbool _ => if freeFormKeys.contains key then [] else []
  | .vnum _ => if freeFormKeys.contains key then [] else []
  | .vstr s =>
    if freeFormKeys.contains key then []
    else enumCheck s key schema.values lines
  | .vobj fs =>
    if freeFormKeys.contains key then []
    else
      match schema.children with
      | some ch => vncFields fs ch lines context key
      | none => []

/-- Walk of an object's fields inside `validateNestedConfig`. -/
def vncFields (fs : List (String × Value)) (ch : List (String × SchemaNode))
    (lines : List (List Char)) (context key : String) : List Diag :=
  match fs with
  | [] => []
  | (subKey, subVal) :: t =>
    (if startsWithS subKey ("x-") then []
     else if freeFormKeys.contains subKey then []
     else
       match (alGet ch subKey).orElse (fun _ => alGet ch "*") with
       | none =>
         [⟨findKeyLine lines subKey 0, 1, unknownNestedMsg subKey context key,
           some ("warning"), none, some ((ch.map Prod.fst).filter (fun k => k != "*"))⟩]
       | some subSchema =>
         validateNestedConfig subVal subKey subSchema lines (context ++ "." ++ key))
      ++ vncFields t ch lines context key

end

/-- Message of the unknown service key diagnostic. -/
def unknownServiceKeyMsg (key serviceName : String) : String :=
  "Unknown service key: \"" ++ key ++ "\" in service \"" ++ serviceName ++ "\""

/-- The quote-stripped string coercion used by the version check. -/
def strippedVersion (v : Value) : String :=
  String.mk ((jsToString v).data.filter (fun c => !(c == dq || c == sq)))

/-- One service key of `validateServices`: extension keys skipped, an
unknown key reported with the full valid service-key set, a known
non-array non-free-form key recursed into. -/
def svcKeyErrs (lines : List (List Char)) (serviceName : String)
    (q : String × Value) : List Diag :=
  if startsWithS q.1 ("x-") then []
  else
    match alGet serviceChildren q.1 with
    | none =>
      [⟨findKeyLine lines q.1 (findKeyLine lines serviceName 0), 1,
        unknownServiceKeyMsg q.1 serviceName,
        some ("error"), none, some (serviceChildren.map Prod.fst)⟩]
    | some sub =>
      if !q.2.isArr && !(freeFormKeys.contains q.1) then
        validateNestedConfig q.2 q.1 sub lines serviceName
      else []

/-- One service entry of `validateServices`: skipped unless object-typed
and truthy, else the missing image/build check followed by the per-key
checks. -/
def svcEntryErrs (lines : List (List Char)) (p : String × Value) : List Diag :=
  if !p.2.truthy || !p.2.isObjType then []
  else
    (if !(truthyO (p.2.jsGet ("image"))) && !(truthyO (p.2.jsGet ("build"))) then
       [⟨findKeyLine lines p.1 0, 1, missingMsg p.1, some ("error"), none, none⟩]
     else [])
      ++ p.2.jsEntries.flatMap (svcKeyErrs lines p.1)

/-- `DockerComposeValidator.validateServices`: for each object-typed
service entry, the required image/build check (JS truthiness of the two
properties), then the per-key unknown-key check and nested validation. -/
def validateServices (services : Value) (lines : List (List Char)) : List Diag :=
  services.jsEntries.flatMap (svcEntryErrs lines)

/-- One key of a named-section entry in `validateSection`. -/
def sectKeyErrs (lines : List (List Char)) (sectionName : String)
    (schemaChildren : List (String × SchemaNode)) (itemName : String)
    (q : String × Value) : List Diag :=
  if startsWithS q.1 ("x-") then []
  else if freeFormKeys.contains q.1 then []
  else if q.1 == "name" then []
  else if q.1 == "external" then []
  else if schemaChildren.length > 0 && (alGet schemaChildren q.1).isNone then
    [⟨findKeyLine lines q.1 (findKeyLine lines itemName 0), 1,
      "Unknown key: \"" ++ q.1 ++ "\" in " ++ sectionName ++ ".\"" ++ itemName ++ "\"",
      some ("error"), none, some (schemaChildren.map Prod.fst)⟩]
  else []

/-- One named-section entry in `validateSection`: `null` entries and the
boolean `external: true` shorthand are skipped, as is anything not
object-typed. -/
def sectEntryErrs (lines : List (List Char)) (sectionName : String)
    (schemaChildren : List (String × SchemaNode)) (p : String × Value) : List Diag :=
  match p.2 with
  | .vnull => []
  | .vbool _ => []
  | itemConfig =>
    if !itemConfig.isObjType then []
    else itemConfig.jsEntries.flatMap (sectKeyErrs lines sectionName schemaChildren p.1)

/-- `DockerComposeValidator.validateSection` (networks, volumes, configs
and secrets): unknown-key check of each object-typed named entry against
the section's child schema. -/
def validateSection (sect : Value) (lines : List (List Char))
    (sectionName : String) (schema : Option SchemaNode) : List Diag :=
  match schema with
  | none => []
  | some sc =>
    sect.jsEntries.flatMap (sectEntryErrs lines sectionName (sc.children.getD []))

/-- One top-level key check of `validate`. -/
def topKeyErr (lines : List (List Char)) (key : String) : List Diag :=
  if startsWithS key ("x-") then []
  else if (alGet DockerComposeSchema key).isSome then []
  else
    if serviceOnlyKeys.contains key then
      [⟨findKeyLine lines key 0, 1,
        "\"" ++ key ++ "\" should be inside a service definition, not at root level. Check indentation.",
        some ("error"), none, none⟩]
    else if deployOnlyKeys.contains key then
      [⟨findKeyLine lines key 0, 1,
        "\"" ++ key ++ "\" should be inside a deploy section, not at root level. Check indentation.",
        some ("error"), none, none⟩]
    else
      [⟨findKeyLine lines key 0, 1, "Unknown top-level key: \"" ++ key ++ "\"",
        some ("error"), none,
        some ((DockerComposeSchema.map Prod.fst).filter (fun k => k != "x"))⟩]

/-- The top-level key walk of `validate`. -/
def topLevelErrs (lines : List (List Char)) (parsedData : Value) : List Diag :=
  parsedData.jsKeys.flatMap (topKeyErr lines)

/-- The version check of `validate` (quote characters stripped from the
string coercion of the value). -/
def versionCheckErrs (lines : List (List Char)) (parsedData : Value) : List Diag :=
  match parsedData.jsGet ("version") with
  | some v =>
    if v.truthy then
      (if !(versionValues.contains (strippedVersion v)) then
         [⟨findKeyLine lines ("version") 0, 1,
           "Invalid version: \"" ++ strippedVersion v ++ "\"",
           some ("warning"), some versionValues, none⟩]
       else [])
    else []
  | none => []

/-- The `services` walk of `validate` (only when present, truthy and
object-typed). -/
def servicesErrs (lines : List (List Char)) (parsedData : Value) : List Diag :=
  match parsedData.jsGet ("services") with
  | some v => if v.truthy && v.isObjType then validateServices v lines else []
  | none => []

/-- A named-section walk of `validate` (only when present, truthy and
object-typed). -/
def namedSectionErrs (lines : List (List Char)) (parsedData : Value)
    (name : String) (schema : Option SchemaNode) : List Diag :=
  match parsedData.jsGet name with
  | some v => if v.truthy && v.isObjType then validateSection v lines name schema else []
  | none => []

/-- `DockerComposeValidator.validate`: top-level key checks (extension
keys skipped; misplaced service-only and deploy-only keys classified),
the version check, then the dedicated section walks, accumulating all
diagnostics in source order. -/
def validate (text : String) (parsedData : Value) : List Diag :=
  let lines := splitNlCh text.data
  if !parsedData.truthy || parsedData.jsKeys.length == 0 then []
  else
    topLevelErrs lines parsedData ++ versionCheckErrs lines parsedData
      ++ servicesErrs lines parsedData
      ++ namedSectionErrs lines parsedData ("networks") (some networkStarSchema)
      ++ namedSectionErrs lines parsedData ("volumes") (some volumeStarSchema)
      ++ namedSectionErrs lines parsedData ("configs") (some configStarSchema)
      ++ namedSectionErrs lines parsedData ("secrets") (some secretStarSchema)

/-- `AutocompleteEngine.serviceKeyPriority`. -/
def serviceKeyPriority : List String :=
  ["image", "build", "container_name", "command", "entrypoint",
   "environment", "env_file", "ports", "expose", "volumes",
   "networks", "depends_on", "deploy", "restart", "healthcheck",
   "secrets", "configs", "labels", "logging", "working_dir",
   "user", "privileged", "cap_add", "cap_drop", "devices",
   "dns", "dns_search", "extra_hosts", "hostname", "domainname",
   "init", "pid", "ipc", "shm_size", "stdin_open", "tty",
   "stop_signal", "stop_grace_period", "security_opt", "sysctls",
   "ulimits", "userns_mode", "platform", "runtime", "isolation",
   "network_mode", "tmpfs", "read_only", "mac_address",
   "cgroup_parent", "links", "external_links", "profiles",
   "pull_policy", "scale", "storage_opt"]

/-- `AutocompleteEngine.deployKeyPriority`. -/
def deployKeyPriority : List String :=
  ["mode", "replicas", "placement", "resources", "restart_policy",
   "update_config", "rollback_config", "labels", "endpoint_mode"]

/-- `AutocompleteEngine.topLevelKeyPriority`. -/
def topLevelKeyPriority : List String :=
  ["version", "services", "networks", "volumes", "secrets", "configs"]

/-- `AutocompleteEngine.networkKeyPriority`. -/
def networkKeyPriority : List String :=
  ["driver", "driver_opts", "external", "name", "attachable",
   "internal", "ipam", "labels", "enable_ipv6"]

/-- `AutocompleteEngine.volumeKeyPriority`. -/
def volumeKeyPriority : List String :=
  ["driver", "driver_opts", "external", "name", "labels"]

/-- `AutocompleteEngine.secretKeyPriority` (secrets and configs). -/
def secretKeyPriority : List String :=
  ["file", "external", "name", "template_driver"]

/-- `AutocompleteEngine.healthcheckKeyPriority`. -/
def healthcheckKeyPriority : List String :=
  ["test", "interval", "timeout", "retries", "start_period", "disable"]

/-- `AutocompleteEngine.resourcesKeyPriority`. -/
def resourcesKeyPriority : List String := ["limits", "reservations"]

/-- `AutocompleteEngine.placementKeyPriority`. -/
def placementKeyPriority : List String :=
  ["constraints", "preferences", "max_replicas_per_node"]

/-- `AutocompleteEngine.updateConfigKeyPriority`. -/
def updateConfigKeyPriority : List String :=
  ["parallelism", "delay", "failure_action", "monitor", "max_failure_ratio", "order"]

/-- `AutocompleteEngine.restartPolicyKeyPriority`. -/
def restartPolicyKeyPriority : List String :=
  ["condition", "delay", "max_attempts", "window"]

/-- `AutocompleteEngine.buildKeyPriority`. -/
def buildKeyPriority : List String :=
  ["context", "dockerfile", "args", "target", "cache_from", "labels", "network", "shm_size"]

/-- `AutocompleteEngine.loggingKeyPriority`. -/
def loggingKeyPriority : List String := ["driver", "options"]

/-- A completion candidate. -/
structure Sug where
  label : String
  kind : String
  descr : Option String
deriving DecidableEq

/-- Stable insertion of `x` after every element it is not strictly below
(the model of one step of a JS stable comparator sort). -/
def insStable {α : Type} (lt : α → α → Bool) (x : α) : List α → List α
  | [] => [x]
  | y :: ys => if lt x y then x :: y :: ys else y :: insStable lt x ys

/-- JS `Array.prototype.sort(cmp)` for a comparator inducing a total
preorder, modelled as a stable insertion sort on the strict part of the
comparator (`lt a b` means `cmp(a, b) < 0`). -/
def jsSortStable {α : Type} (lt : α → α → Bool) (l : List α) : List α :=
  l.foldl (fun acc x => insStable lt x acc) []

/-- JS `array.indexOf(x)` as an integer. -/
def idxInList (x : String) (l : List String) : Int :=
  match l with
  | [] => -1
  | y :: t =>
    if y == x then 0
    else
      let r := idxInList x t
      if r < 0 then -1 else r + 1

/-- Code-point comparison of two strings (`localeCompare` on the ASCII
schema keys), as a comparator sign. -/
def strCmp (a b : String) : Int :=
  if a == b then 0 else if a < b then -1 else 1

/-- The `sortByPriority` comparator as a signed integer. -/
def priCmp (priorityList : List String) (a b : String) : Int :=
  let aIdx := idxInList a priorityList
  let bIdx := idxInList b priorityList
  if aIdx != -1 && bIdx != -1 then aIdx - bIdx
  else if aIdx != -1 then -1
  else if bIdx != -1 then 1
  else strCmp a b

/-- `AutocompleteEngine.sortByPriority`: keys in the priority list in
list order first, the rest alphabetically after them. -/
def sortByPriority (keys priorityList : List String) : List String :=
  jsSortStable (fun a b => priCmp priorityList a b < 0) keys

/-- A context-resolution frame: the indent and key of an open block. -/
structure Ctx where
  path : List String
  indent : Int
deriving DecidableEq

/-- First-colon index of a list, as `Option Nat`. -/
def idxOfN (c : Char) (s : List Char) : Option Nat :=
  match s with
  | [] => none
  | a :: t =>
    if a == c then some 0
    else (idxOfN c t).map (· + 1)

/-- Capture of `SINGLE([^:]+):` against `s`: the run before the first
colon, when non-empty and a colon follows. -/
def ctxCapture (s : List Char) : Option (List Char) :=
  let run := s.takeWhile (fun c => c != ':')
  if !run.isEmpty && (s.drop run.length).take 1 == [':'] then some run else none

/-- The `getContext` regex `^-?\s*([^:]+):` applied to a trimmed line,
with the backtracking of the greedy `-?\s*` made explicit: after an
initial dash the whitespace run is shortened until the capture is
non-empty (so a colon right after the dash's whitespace captures the
last whitespace character, and a bare leading `-` with an immediate
colon falls back to capturing the dash itself). -/
def ctxKeyMatch (trimmed : List Char) : Option (List Char) :=
  match trimmed with
  | '-' :: s =>
    let w := (s.takeWhile isWs).length
    (match idxOfN ':' s with
     | some p =>
       if p > w then some ((s.drop w).take (p - w))
       else if w > 0 then some [s.getD (w - 1) ' ']
       else ctxCapture trimmed
     | none => none)
  | s => ctxCapture s

/-- Pop context frames at indent `≥ ind` (the root frame is kept). -/
def ctxPop : List (Int × String) → Int → List (Int × String)
  | a :: b :: rest, ind =>
    if a.1 ≥ ind then ctxPop (b :: rest) ind else a :: b :: rest
  | s, _ => s

/-- One line of `getContext`'s replay: a key line pops to its parent and,
when its value position is empty or a block-scalar marker, pushes an
open-block frame. -/
def ctxStep (stk : List (Int × String)) (line : List Char) : List (Int × String) :=
  let trimmed := trimCh line
  if trimmed == [] || trimmed.take 1 == ['#'] then stk
  else
    let indent := searchNonWs line
    match ctxKeyMatch trimmed with
    | none => stk
    | some keyRaw =>
      let key := String.mk (trimCh keyRaw)
      let afterColon := trimCh (trimmed.drop ((idxOf ':' trimmed).toNat + 1))
      let stk1 := ctxPop stk indent
      if afterColon == [] || afterColon == ("|").data || afterColon == (">").data
         || afterColon == ("|-").data || afterColon == (">-").data then
        (indent, key) :: stk1
      else stk1

/-- `AutocompleteEngine.getContext`: replay the indentation stack over
the lines strictly before the cursor line, then pop to the cursor's own
indentation (line length stands in for the indent of an all-whitespace
cursor line). -/
def getContext (lines : List (List Char)) (cursorLine : Nat) : Ctx :=
  let stk := (lines.take (cursorLine - 1)).foldl ctxStep [((-1 : Int), "root")]
  let currentLine := (lines.get? (cursorLine - 1)).getD []
  let ci0 := searchNonWs currentLine
  let currentIndent : Int := if ci0 < 0 then (currentLine.length : Int) else ci0
  let stk2 := ctxPop stk currentIndent
  ⟨(stk2.reverse.drop 1).map Prod.snd, ((stk2.head? ).map Prod.fst).getD (-1)⟩

/-- State of the schema-walk in `getKeySuggestions`: still at the
top-level table, at a schema node, absorbed into a node's own scalar
property (type, description, ... — never a node again, yields no
children), or broken off with an undefined schema. -/
inductive NavSt where
  | map : NavSt
  | node : SchemaNode → NavSt
  | junk : NavSt
  | dead : NavSt

/-- Truthiness of a schema node's own property named `key`, for the
`schema[key]` fallback on nodes without children (`type` is always a
non-empty value; `required` is only present as `false`, which is falsy;
`children` is absent on such nodes). -/
def nodeFieldTruthy (n : SchemaNode) (key : String) : Bool :=
  (key == "type")
  || (key == "description" && n.descr.isSome)
  || (key == "values" && n.values.isSome)
  || (key == "example" && n.example.isSome)
  || (key == "isExtension" && n.isExt)

/-- One step of the schema walk of `getKeySuggestions` and
`getValueSuggestions`. -/
def navStep (s : NavSt) (key : String) : NavSt :=
  match s with
  | .map =>
    (match alGet DockerComposeSchema key with
     | some n => .node n
     | none => .map)
  | .node n =>
    (match n.children with
     | some ch =>
       (match (alGet ch key).orElse (fun _ => alGet ch "*") with
        | some n' => .node n'
        | none => .dead)
     | none => if nodeFieldTruthy n key then .junk else .node n)
  | .junk => .junk
  | .dead => .dead

/-- The per-context priority list chosen by `getKeySuggestions`. -/
def pickPriority (path : List String) : List String :=
  if path.length == 0 then topLevelKeyPriority
  else if path.take 1 == ["services"] && path.length ≥ 2 then
    if path.length == 2 then serviceKeyPriority
    else
      match path.getLast? with
      | some l =>
        if l == "deploy" then deployKeyPriority
        else if l == "healthcheck" then healthcheckKeyPriority
        else if l == "resources" then resourcesKeyPriority
        else if l == "placement" then placementKeyPriority
        else if l == "update_config" || l == "rollback_config" then updateConfigKeyPriority
        else if l == "restart_policy" then restartPolicyKeyPriority
        else if l == "build" then buildKeyPriority
        else if l == "logging" then loggingKeyPriority
        else if l == "limits" || l == "reservations" then
          ["cpus", "memory", "pids", "generic_resources"]
        else serviceKeyPriority
      | none => serviceKeyPriority
  else if path.take 1 == ["networks"] && path.length ≥ 2 then networkKeyPriority
  else if path.take 1 == ["volumes"] && path.length ≥ 2 then volumeKeyPriority
  else if (path.take 1 == ["secrets"] || path.take 1 == ["configs"]) && path.length ≥ 2 then
    secretKeyPriority
  else topLevelKeyPriority

/-- `AutocompleteEngine.getKeySuggestions`: walk the schema along the
context path and offer the reachable node's child keys (wildcard
excluded), priority-sorted; a broken-off walk falls back to the
top-level key set; a walk ending anywhere without children offers
nothing. -/
def getKeySuggestions (context : Ctx) : List Sug :=
  let priorityList := pickPriority context.path
  match context.path.foldl navStep .map with
  | .dead =>
    let keys := (DockerComposeSchema.map Prod.fst).filter (fun k => k != "x")
    (sortByPriority keys priorityList).map (fun key =>
      ⟨key, "key", (alGet DockerComposeSchema key).bind SchemaNode.descr⟩)
  | .node n =>
    (match n.children with
     | some ch =>
       let keys := (ch.map Prod.fst).filter (fun k => k != "*")
       (sortByPriority keys priorityList).map (fun key =>
         ⟨key, "key", (alGet ch key).bind SchemaNode.descr⟩)
     | none => [])
  | _ => []

/-- `AutocompleteEngine.getValueSuggestions`: the enumerated values of
the schema node for `key` under the cursor context, when declared. -/
def getValueSuggestions (context : Ctx) (key : String) : List Sug :=
  match context.path.foldl navStep .map with
  | .node n =>
    (match n.children with
     | some ch =>
       (match alGet ch key with
        | some ks =>
          (match ks.values with
           | some vs => vs.map (fun v => ⟨v, "value", some ("Valid value for " ++ key)⟩)
           | none => [])
        | none => [])
     | none => [])
  | _ => []

/-- The key captured by the regex `^\s*(\S+)\s*:` on the text before the
cursor (used for value suggestions), with the greedy backtracking of
`\S+` made explicit: the whole first token when a colon follows it,
otherwise the token's prefix up to its last inner colon. -/
def valueKeyMatch (beforeCursor : List Char) : Option (List Char) :=
  let s := beforeCursor.dropWhile isWs
  let tok := s.takeWhile (fun c => !isWs c)
  if tok.isEmpty then none
  else if ((s.drop tok.length).dropWhile isWs).take 1 == [':'] then some tok
  else
    (((List.range tok.length).filter
        (fun i => decide (1 ≤ i) && tok.getD i ' ' == ':')).getLast?).map
      (fun i => tok.take i)

/-- The fragment already typed at the cursor: after the last colon when
composing a value, otherwise the trimmed text with one leading list dash
(and following whitespace) stripped. -/
def typedFragment (beforeCursor : List Char) (isAfterColon : Bool) : List Char :=
  if isAfterColon then
    trimCh ((beforeCursor.reverse.takeWhile (fun c => c != ':')).reverse)
  else
    let t := trimCh beforeCursor
    match t with
    | '-' :: r => r.dropWhile isWs
    | _ => t

/-- The unfiltered candidate list of `getSuggestions` (key suggestions
when composing a key, value suggestions after a colon). -/
def sugBase (lines : List (List Char)) (cursorLine cursorCol : Nat) : List Sug :=
  let currentLine := (lines.get? (cursorLine - 1)).getD []
  let beforeCursor := currentLine.take cursorCol
  let context := getContext lines cursorLine
  let indent := searchNonWs currentLine
  let isAfterColon := beforeCursor.contains ':'
  let isStartOfKey := !isAfterColon
      && (indent == 0 || trimCh beforeCursor == [] || (trimCh beforeCursor).take 1 == ['-'])
  if isStartOfKey || (!isAfterColon && (trimCh beforeCursor).length > 0) then
    getKeySuggestions context
  else if isAfterColon then
    match valueKeyMatch beforeCursor with
    | some k => getValueSuggestions context (String.mk k)
    | none => []
  else []

/-- Lower-casing of a fragment (JS `toLowerCase` on the ASCII labels). -/
def lowerL (s : List Char) : List Char := s.map Char.toLower

/-- The filter predicate of `getSuggestions`: the label case-insensitively
starts with or contains the typed fragment. -/
def sugMatches (lower : List Char) (s : Sug) : Bool :=
  lower.isPrefixOf (lowerL s.label.data) || listIncludes (lowerL s.label.data) lower

/-- Whether a candidate is a case-insensitive starts-with match. -/
def sugStarts (lower : List Char) (s : Sug) : Bool :=
  lower.isPrefixOf (lowerL s.label.data)

/-- `AutocompleteEngine.getSuggestions`: candidates for the cursor
position, filtered by the typed fragment, starts-with matches stably
sorted before contains-only matches, capped at 15. -/
def getSuggestions (text : String) (cursorLine cursorCol : Nat) : List Sug :=
  let lines := splitNlCh text.data
  let currentLine := (lines.get? (cursorLine - 1)).getD []
  let beforeCursor := currentLine.take cursorCol
  let isAfterColon := beforeCursor.contains ':'
  let suggestions := sugBase lines cursorLine cursorCol
  let typed := typedFragment beforeCursor isAfterColon
  let filtered :=
    if !typed.isEmpty then
      let lower := lowerL typed
      jsSortStable (fun a b => sugStarts lower a && !(sugStarts lower b))
        (suggestions.filter (sugMatches lower))
    else suggestions
  filtered.take 15

/-! ### Auxiliary views of the parser run, used by the theorems below -/

/-- The line list of a document. -/
def linesOf (text : String) : List (List Char) := splitNlCh text.data

/-- The number of lines of a document (as split on newlines). -/
def numLines (text : String) : Nat := (linesOf text).length

/-- Whether a line is a content line (not blank, not a comment). -/
def isContent (l : List Char) : Bool :=
  !(trimCh l == [] || (trimCh l).take 1 == ['#'])

/-- Run the parser over `done` when the remaining document continues
with `rest` (each step's lookahead sees the rest of `done` followed by
`rest`); `runP ls = runPLook ls []`. -/
def runPLook : List (List Char) → List (List Char) → PState → PState
  | [], _, st => st
  | l :: t, rest, st => runPLook t rest (step l (t ++ rest) st)

/-- The parser state just before the 0-based line `j` of a document. -/
def stateAt (text : String) (j : Nat) : PState :=
  runPLook ((linesOf text).take j) ((linesOf text).drop j) initState

/-! ### A stable flat class for the round-trip (C1) -/

/-- A nonempty fragment with non-whitespace first and last character. -/
def noEdgeWs (l : List Char) : Bool :=
  l != [] && !(l.take 1).any isWs && !(l.reverse.take 1).any isWs

/-- A scalar whose rendering survives the trim, the line split and the
re-parse of the parser unchanged. -/
def scalarOk (v : Value) : Bool :=
  match v with
  | .vobj _ => false
  | .varr _ => false
  | x =>
    noEdgeWs (valueToString x).data
      && !(valueToString x).data.contains '\n'
      && (valueToString x).data != ("|").data
      && (valueToString x).data != (">").data
      && (valueToString x).data != ("|-").data
      && (valueToString x).data != (">-").data
      && (valueToString x).data != ("[]").data
      && (valueToString x).data != ("{}").data
      && decide (parseValue (valueToString x).data = x)

/-- A key that the serializer writes and the parser reads back unchanged. -/
def keyOk (k : String) : Bool :=
  noEdgeWs k.data && !k.data.contains ':' && !k.data.contains '\n'
    && k.data.take 1 != ['#'] && k.data.take 1 != ['-']

/-- A stable flat field. -/
def fieldOk (p : String × Value) : Bool := keyOk p.1 && scalarOk p.2

/-- A flat object of stable scalar fields with distinct keys. -/
def flatOk (fs : List (String × Value)) : Bool :=
  fs.all fieldOk && decide ((fs.map Prod.fst).Nodup)

/-- The one line `stringify` writes for a flat scalar field. -/
def renderLine (p : String × Value) : List Char :=
  p.1.data ++ ':' :: ' ' :: (valueToString p.2).data

/-! ### Concrete documents used by the claim theorems -/

/-- Scenario document for C8. -/
def exD : String := "services:\n  web:\n    deploy:\n      "

/-- Counterexample document for C1: a clean parse whose tree holds the
string `"true"`. -/
def exC1 : String := "a: \"true\""

/-- Counterexample document for C2: a list item under a non-array. -/
def exC2 : String := "a: 1\n- b"

/-- Counterexample document for C3: an enum value that only extends a
bracketless enum entry (`global`) by extra characters. -/
def exC3 : String :=
  "services:\n  web:\n    image: nginx\n    deploy:\n      mode: globalx\n"

/-- Counterexample document for C4: the service name `web` occurs as a
key of an earlier service before its own declaration line. -/
def exC4 : String := "services:\n  db:\n    web: 1\n  web:\n    x: 1\n"

/-- Counterexample document for C5: a bare word is invalid syntax. -/
def exC5 : String := "x"

/-- Counterexample document for C6: the service list under `services`
makes the validator look up service name `0`, which first matches the
last line, and the unknown-key search for `web` then starts past it. -/
def exC6 : String := "services:\n  - web: x\n0: 1"

/-- Witness document for C10: `image:` with nothing after it and no
deeper content parses to `null`, a present but falsy `image` key. -/
def exC10 : String := "services:\n  web:\n    image:\n"

/-- Witness document for C9: the cursor sits after the fragment `im` on
the third line. -/
def exC9 : String := "services:\n  web:\n    im"

/-- Witness document for C7: line `      c: 1` (indent 6) follows line
`  b:` (indent 2) after the unit 2 is established, a jump of 4. -/
def exC7 : String := "a:\n  b:\n      c: 1"

/-- C8: with the cursor on the blank 6-space line after
`services: / web: / deploy:`, `getContext` resolves the path
`["services", "web", "deploy"]` and `getKeySuggestions` ranks `mode`,
`replicas`, `placement`, `resources` as the first four keys. -/
theorem c8_deploy_context_and_ranking :
    (getContext (splitNlCh exD.data) 4).path = ["services", "web", "deploy"]
      ∧ ((getKeySuggestions (getContext (splitNlCh exD.data) 4)).map Sug.label).take 4
        = ["mode", "replicas", "placement", "resources"] := by
  constructor <;> decide

/-- C1 counterexample: `parse exC1` is structurally clean and yields the
tree `{a: "true"}`, but re-parsing its serialization yields `{a: true}`:
`parse (stringify tree) .data ≠ tree`. -/
theorem c1_roundtrip_counterexample :
    (parse exC1).errors = []
      ∧ (parse (stringify (parse exC1).data 0)).data ≠ (parse exC1).data := by
  constructor
  · decide
  · decide

/-- C2 counterexample: on `a: 1` followed by `- b`, parse emits the
list-parent-mismatch error but drops the item entirely — the tree is
`{a: 1}` with no trace of `b`, so the line is not integrated by treating
the enclosing container as an array. -/
theorem c2_drop_counterexample :
    (parse exC2).errors = [mkDiag 2 1 mismatchMsg (some ("error"))]
      ∧ (parse exC2).data = .vobj [("a", .vnum 1)] := by
  constructor <;> decide

/-- C3 counterexample: `deploy.mode: globalx` equals no enum entry and
`replicated`/`global` carry no bracketed placeholder, yet validate emits
nothing, because the code accepts a prefix match against any enum entry
(bracketed or not). -/
theorem c3_enum_counterexample :
    validate exC3 (parse exC3).data = [] := by
  decide

/-- C4 counterexample: service `web` (declared on line 4) lacks image and
build; the single missing-image-or-build diagnostic is anchored at line 3,
the first line whose key lexically matches `web`, not at the declaration
line 4 (whose text is `  web:`). -/
theorem c4_line_counterexample :
    (validate exC4 (parse exC4).data).filter (fun d => d.message == missingMsg ("web"))
        = [mkDiag 3 1 (missingMsg ("web")) (some ("error"))]
      ∧ (splitNlCh exC4.data).getD 3 [] = ("  web:").data := by
  constructor <;> decide

/-- C5 counterexample: the invalid-syntax diagnostic is pushed without a
severity field. -/
theorem c5_severity_counterexample :
    (parse exC5).errors = [⟨1, 1, invalidMsg, none, none, none⟩] := by
  decide

/-- C6 counterexample: on a 3-line document, validate emits a diagnostic
at line 4, beyond the input's line count. -/
theorem c6_line_bound_counterexample :
    (splitNlCh exC6.data).length = 3
      ∧ (⟨4, 1, "Unknown service key: \"web\" in service \"0\"",
            some ("error"), none, some (serviceChildren.map Prod.fst)⟩ : Diag)
          ∈ validate exC6 (parse exC6).data := by
  constructor
  · decide
  · decide

/-! ### Lemmas about the parser run -/

theorem runP_eq_runPLook : ∀ (a : List (List Char)) (st : PState),
    runP a st = runPLook a [] st := by
  intro a
  induction a with
  | nil => intro st; rfl
  | cons l t ih =>
    intro st
    show runP t (step l t st) = runPLook t [] (step l (t ++ []) st)
    rw [List.append_nil]
    exact ih _

theorem runPLook_append : ∀ (a b c : List (List Char)) (st : PState),
    runPLook (a ++ b) c st = runPLook b c (runPLook a (b ++ c) st) := by
  intro a
  induction a with
  | nil => intro b c st; rfl
  | cons l t ih =>
    intro b c st
    show runPLook (t ++ b) c (step l (t ++ b ++ c) st)
        = runPLook b c (runPLook t (b ++ c) (step l (t ++ (b ++ c)) st))
    rw [List.append_assoc]
    exact ih _ _ _

theorem parse_eq_stateAt (text : String) :
    parse text = ⟨flushAll (stateAt text (numLines text)).stack,
                  (stateAt text (numLines text)).errors⟩ := by
  unfold parse stateAt numLines linesOf
  rw [List.take_length, List.drop_length, ← runP_eq_runPLook]

theorem step_lineNo (l : List Char) (rest : List (List Char)) (st : PState) :
    (step l rest st).lineNo = st.lineNo + 1 := rfl

theorem step_errors (l : List Char) (rest : List (List Char)) (st : PState) :
    (step l rest st).errors = st.errors ++ stepErrs l st := rfl

theorem step_stack (l : List Char) (rest : List (List Char)) (st : PState) :
    (step l rest st).stack = stepStack l rest st.stack := rfl

theorem indentChecks_mem (st : PState) (i n : Nat) :
    ∀ d ∈ indentChecks st i n, d.line = n ∧ d.severity = some ("error") := by
  intro d hd
  simp only [indentChecks] at hd
  repeat' split at hd
  all_goals simp only [mkDiag, List.mem_append, List.mem_singleton,
    List.not_mem_nil, or_false, false_or] at hd
  all_goals try casesm* _ ∨ _
  all_goals first
    | exact ⟨rfl, rfl⟩
    | simp_all [mkDiag]

theorem stepErrs_mem (l : List Char) (st : PState) :
    ∀ d ∈ stepErrs l st,
      d.line = st.lineNo + 1
        ∧ (d.severity = some ("error") ∨ (d.severity = none ∧ d.message = invalidMsg)) := by
  intro d hd
  simp only [stepErrs] at hd
  repeat' split at hd
  all_goals simp only [mkDiag, List.mem_append, List.mem_singleton,
    List.not_mem_nil, List.append_nil, or_false, false_or] at hd
  all_goals try casesm* _ ∨ _
  all_goals first
    | exact ⟨rfl, by simp⟩
    | exact ⟨(indentChecks_mem st _ _ d hd).1,
        Or.inl (indentChecks_mem st _ _ d hd).2⟩
    | (rename_i hmem
       exact ⟨(indentChecks_mem st _ _ d hmem).1,
         Or.inl (indentChecks_mem st _ _ d hmem).2⟩)
    | simp_all [mkDiag]

theorem runPLook_lineNo : ∀ (a c : List (List Char)) (st : PState),
    (runPLook a c st).lineNo = st.lineNo + a.length := by
  intro a
  induction a with
  | nil => intro c st; rfl
  | cons l t ih =>
    intro c st
    show (runPLook t c (step l (t ++ c) st)).lineNo = st.lineNo + (t.length + 1)
    rw [ih, step_lineNo]
    omega

theorem runPLook_errors : ∀ (a c : List (List Char)) (st : PState),
    ∃ tail, (runPLook a c st).errors = st.errors ++ tail
      ∧ ∀ d ∈ tail,
          st.lineNo < d.line ∧ d.line ≤ st.lineNo + a.length
            ∧ (d.severity = some ("error")
               ∨ (d.severity = none ∧ d.message = invalidMsg)) := by
  intro a
  induction a with
  | nil =>
    intro c st
    exact ⟨[], by simp [runPLook], by simp⟩
  | cons l t ih =>
    intro c st
    obtain ⟨tail, he, hp⟩ := ih c (step l (t ++ c) st)
    refine ⟨stepErrs l st ++ tail, ?_, ?_⟩
    · show (runPLook t c (step l (t ++ c) st)).errors = _
      rw [he, step_errors, List.append_assoc]
    · intro d hd
      rcases List.mem_append.1 hd with h | h
      · obtain ⟨h1, h2⟩ := stepErrs_mem l st d h
        refine ⟨by omega, ?_, h2⟩
        simp only [List.length_cons]
        omega
      · obtain ⟨h1, h2, h3⟩ := hp d h
        rw [step_lineNo] at h1 h2
        refine ⟨by omega, ?_, h3⟩
        simp only [List.length_cons]
        omega

/-- Every parse diagnostic has a 1-based line within the line count, and
carries severity `error` except the invalid-syntax diagnostic, which
carries none. -/
theorem parse_errors_mem (text : String) :
    ∀ d ∈ (parse text).errors,
      1 ≤ d.line ∧ d.line ≤ numLines text
        ∧ (d.severity = some ("error")
           ∨ (d.severity = none ∧ d.message = invalidMsg)) := by
  intro d hd
  rw [parse_eq_stateAt] at hd
  simp only at hd
  unfold stateAt numLines at hd
  rw [List.take_length, List.drop_length] at hd
  obtain ⟨tail, he, hp⟩ := runPLook_errors (linesOf text) [] initState
  rw [he] at hd
  simp only [initState, List.nil_append] at hd
  obtain ⟨h1, h2, h3⟩ := hp d hd
  simp only [initState] at h1 h2
  exact ⟨by omega, by simpa [numLines] using h2, h3⟩

/-! ### Lemmas about the validator walks -/

theorem splitNlCh_length_pos (l : List Char) : 1 ≤ (splitNlCh l).length := by
  induction l with
  | nil => simp [splitNlCh]
  | cons c t ih =>
    unfold splitNlCh
    split
    · simp
    · split <;> simp_all

theorem findKeyAux_some : ∀ (ls : List (List Char)) (key : List Char) (i r : Nat),
    findKeyAux key ls i = some r → i + 1 ≤ r ∧ r ≤ i + ls.length := by
  intro ls
  induction ls with
  | nil => intro key i r h; cases h
  | cons l t ih =>
    intro key i r h
    unfold findKeyAux at h
    split at h
    · cases h
      simp only [List.length_cons]
      omega
    · obtain ⟨h1, h2⟩ := ih key (i + 1) r h
      simp only [List.length_cons]
      constructor <;> omega

theorem findKeyLine_lb (lines : List (List Char)) (key : String) (s : Nat) :
    s + 1 ≤ findKeyLine lines key s := by
  unfold findKeyLine
  cases h : findKeyAux key.data (lines.drop s) s with
  | none => simp
  | some r =>
    obtain ⟨h1, _⟩ := findKeyAux_some _ _ _ _ h
    simpa using h1

theorem findKeyLine_ub (lines : List (List Char)) (key : String) (s : Nat) :
    findKeyLine lines key s ≤ max (s + 1) lines.length := by
  unfold findKeyLine
  cases h : findKeyAux key.data (lines.drop s) s with
  | none => simp
  | some r =>
    obtain ⟨_, h2⟩ := findKeyAux_some _ _ _ _ h
    simp only [Option.getD_some]
    have hd : (lines.drop s).length = lines.length - s := List.length_drop s lines
    omega

theorem enumCheck_mem (s key : String) (vals : Option (List String))
    (lines : List (List Char)) :
    ∀ d ∈ enumCheck s key vals lines,
      d.line = findKeyLine lines key 0 ∧ d.severity = some ("warning") := by
  intro d hd
  unfold enumCheck at hd
  repeat' split at hd
  all_goals simp only [List.mem_singleton, List.not_mem_nil] at hd
  all_goals first
    | (subst hd; exact ⟨rfl, rfl⟩)
    | cases hd

mutual

theorem vnc_mem : ∀ (config : Value) (key : String) (schema : SchemaNode)
    (lines : List (List Char)) (context : String) (d : Diag),
    d ∈ validateNestedConfig config key schema lines context →
      d.severity = some ("warning") ∧ 1 ≤ d.line ∧ d.line ≤ max 1 lines.length
  | .vnull, key, schema, lines, context, d, hd => by
    simp [validateNestedConfig] at hd
  | .varr xs, key, schema, lines, context, d, hd => by
    simp [validateNestedConfig] at hd
  | .vbool b, key, schema, lines, context, d, hd => by
    unfold validateNestedConfig at hd
    split at hd <;> cases hd
  | .vnum q, key, schema, lines, context, d, hd => by
    unfold validateNestedConfig at hd
    split at hd <;> cases hd
  | .vstr s, key, schema, lines, context, d, hd => by
    unfold validateNestedConfig at hd
    split at hd
    · cases hd
    · obtain ⟨h1, h2⟩ := enumCheck_mem s key schema.values lines d hd
      refine ⟨h2, ?_, ?_⟩
      · have := findKeyLine_lb lines key 0
        omega
      · have := findKeyLine_ub lines key 0
        omega
  | .vobj fs, key, schema, lines, context, d, hd => by
    unfold validateNestedConfig at hd
    split at hd
    · cases hd
    · split at hd
      · exact vncF_mem fs _ lines context key d hd
      · cases hd

theorem vncF_mem : ∀ (fs : List (String × Value)) (ch : List (String × SchemaNode))
    (lines : List (List Char)) (context key : String) (d : Diag),
    d ∈ vncFields fs ch lines context key →
      d.severity = some ("warning") ∧ 1 ≤ d.line ∧ d.line ≤ max 1 lines.length
  | [], ch, lines, context, key, d, hd => by simp [vncFields] at hd
  | (sk, sv) :: t, ch, lines, context, key, d, hd => by
    unfold vncFields at hd
    rcases List.mem_append.1 hd with h | h
    · split at h
      · cases h
      · split at h
        · cases h
        · split at h
          · simp only [List.mem_singleton] at h
            subst h
            refine ⟨rfl, ?_, ?_⟩
            · have := findKeyLine_lb lines sk 0
              simp only
              omega
            · have := findKeyLine_ub lines sk 0
              simp only
              omega
          · exact vnc_mem sv sk _ lines _ d h
    · exact vncF_mem t ch lines context key d h

end

theorem svcKeyErrs_mem (lines : List (List Char)) (serviceName : String)
    (q : String × Value) :
    ∀ d ∈ svcKeyErrs lines serviceName q,
      (d.severity = some ("error") ∨ d.severity = some ("warning"))
        ∧ 1 ≤ d.line ∧ d.line ≤ max 1 lines.length + 1 := by
  intro d hd
  unfold svcKeyErrs at hd
  repeat' split at hd
  all_goals first
    | (simp only [List.mem_singleton] at hd
       subst hd
       refine ⟨Or.inl rfl, ?_, ?_⟩
       · have := findKeyLine_lb lines q.1 (findKeyLine lines serviceName 0)
         simp only
         omega
       · have h1 := findKeyLine_ub lines q.1 (findKeyLine lines serviceName 0)
         have h2 := findKeyLine_ub lines serviceName 0
         simp only
         omega)
    | cases hd
    | (obtain ⟨h1, h2, h3⟩ := vnc_mem q.2 q.1 _ lines serviceName d hd
       exact ⟨Or.inr h1, h2, by omega⟩)

theorem svcEntryErrs_mem (lines : List (List Char)) (p : String × Value) :
    ∀ d ∈ svcEntryErrs lines p,
      (d.severity = some ("error") ∨ d.severity = some ("warning"))
        ∧ 1 ≤ d.line ∧ d.line ≤ max 1 lines.length + 1 := by
  intro d hd
  unfold svcEntryErrs at hd
  split at hd
  · cases hd
  · rcases List.mem_append.1 hd with h | h
    · split at h
      · simp only [List.mem_singleton] at h
        subst h
        refine ⟨Or.inl rfl, ?_, ?_⟩
        · have := findKeyLine_lb lines p.1 0
          simp only
          omega
        · have := findKeyLine_ub lines p.1 0
          simp only
          omega
      · cases h
    · obtain ⟨q, _, hq⟩ := List.mem_flatMap.1 h
      exact svcKeyErrs_mem lines p.1 q d hq

theorem validateServices_mem (services : Value) (lines : List (List Char)) :
    ∀ d ∈ validateServices services lines,
      (d.severity = some ("error") ∨ d.severity = some ("warning"))
        ∧ 1 ≤ d.line ∧ d.line ≤ max 1 lines.length + 1 := by
  intro d hd
  obtain ⟨p, _, hp⟩ := List.mem_flatMap.1 hd
  exact svcEntryErrs_mem lines p d hp

theorem sectKeyErrs_mem (lines : List (List Char)) (sectionName : String)
    (schemaChildren : List (String × SchemaNode)) (itemName : String)
    (q : String × Value) :
    ∀ d ∈ sectKeyErrs lines sectionName schemaChildren itemName q,
      d.severity = some ("error")
        ∧ 1 ≤ d.line ∧ d.line ≤ max 1 lines.length + 1 := by
  intro d hd
  unfold sectKeyErrs at hd
  repeat' split at hd
  all_goals first
    | (simp only [List.mem_singleton] at hd
       subst hd
       refine ⟨rfl, ?_, ?_⟩
       · have := findKeyLine_lb lines q.1 (findKeyLine lines itemName 0)
         simp only
         omega
       · have h1 := findKeyLine_ub lines q.1 (findKeyLine lines itemName 0)
         have h2 := findKeyLine_ub lines itemName 0
         simp only
         omega)
    | cases hd

theorem sectEntryErrs_mem (lines : List (List Char)) (sectionName : String)
    (schemaChildren : List (String × SchemaNode)) (p : String × Value) :
    ∀ d ∈ sectEntryErrs lines sectionName schemaChildren p,
      d.severity = some ("error")
        ∧ 1 ≤ d.line ∧ d.line ≤ max 1 lines.length + 1 := by
  intro d hd
  unfold sectEntryErrs at hd
  split at hd
  · cases hd
  · cases hd
  · split at hd
    · cases hd
    · obtain ⟨q, _, hq⟩ := List.mem_flatMap.1 hd
      exact sectKeyErrs_mem lines sectionName schemaChildren p.1 q d hq

theorem validateSection_mem (sect : Value) (lines : List (List Char))
    (sectionName : String) (schema : Option SchemaNode) :
    ∀ d ∈ validateSection sect lines sectionName schema,
      d.severity = some ("error")
        ∧ 1 ≤ d.line ∧ d.line ≤ max 1 lines.length + 1 := by
  intro d hd
  unfold validateSection at hd
  split at hd
  · cases hd
  · obtain ⟨p, _, hp⟩ := List.mem_flatMap.1 hd
    exact sectEntryErrs_mem lines _ _ p d hp

theorem topKeyErr_mem (lines : List (List Char)) (key : String) :
    ∀ d ∈ topKeyErr lines key,
      d.severity = some ("error") ∧ 1 ≤ d.line ∧ d.line ≤ max 1 lines.length := by
  intro d hd
  unfold topKeyErr at hd
  repeat' split at hd
  all_goals first
    | (simp only [List.mem_singleton] at hd
       subst hd
       refine ⟨rfl, ?_, ?_⟩
       · have := findKeyLine_lb lines key 0
         simp only
         omega
       · have := findKeyLine_ub lines key 0
         simp only
         omega)
    | cases hd

theorem versionCheckErrs_mem (lines : List (List Char)) (parsedData : Value) :
    ∀ d ∈ versionCheckErrs lines parsedData,
      d.severity = some ("warning") ∧ 1 ≤ d.line ∧ d.line ≤ max 1 lines.length := by
  intro d hd
  unfold versionCheckErrs at hd
  repeat' split at hd
  all_goals first
    | (simp only [List.mem_singleton] at hd
       subst hd
       refine ⟨rfl, ?_, ?_⟩
       · have := findKeyLine_lb lines ("version") 0
         simp only
         omega
       · have := findKeyLine_ub lines ("version") 0
         simp only
         omega)
    | cases hd

theorem validate_mem (text : String) (parsedData : Value) :
    ∀ d ∈ validate text parsedData,
      (d.severity = some ("error") ∨ d.severity = some ("warning"))
        ∧ 1 ≤ d.line ∧ d.line ≤ numLines text + 1 := by
  intro d hd
  unfold validate at hd
  split at hd
  · cases hd
  · have hlen : 1 ≤ (splitNlCh text.data).length := splitNlCh_length_pos text.data
    have hmax : max 1 (splitNlCh text.data).length = (splitNlCh text.data).length := by
      omega
    have hnum : numLines text = (splitNlCh text.data).length := rfl
    simp only [List.mem_append] at hd
    rcases hd with ((((((h | h) | h) | h) | h) | h) | h)
    · obtain ⟨k, _, hk⟩ := List.mem_flatMap.1 h
      obtain ⟨h1, h2, h3⟩ := topKeyErr_mem _ k d hk
      exact ⟨Or.inl h1, h2, by omega⟩
    · obtain ⟨h1, h2, h3⟩ := versionCheckErrs_mem _ parsedData d h
      exact ⟨Or.inr h1, h2, by omega⟩
    · unfold servicesErrs at h
      split at h
      · split at h
        · obtain ⟨h1, h2, h3⟩ := validateServices_mem _ _ d h
          exact ⟨h1, h2, by omega⟩
        · cases h
      · cases h
    all_goals
      (unfold namedSectionErrs at h
       split at h
       · split at h
         · obtain ⟨h1, h2, h3⟩ := validateSection_mem _ _ _ _ d h
           exact ⟨Or.inl h1, h2, by omega⟩
         · cases h
       · cases h)

/-! ### Claim theorems C3, C5, C6 (amended) -/

/-- C3 (amended): for a string value under a schema node declaring enum
`values` and a non-free-form key, the validator emits exactly one
warning iff the string does not start with the text of any enum entry
before the entry's first `[` (for an entry without a bracket this is the
whole entry, so bracketless entries also admit strict prefix-extension
matches, not only exact equality). -/
theorem c3_enum_prefix_amended (s key : String) (schema : SchemaNode)
    (vs : List String) (lines : List (List Char)) (context : String)
    (hk : freeFormKeys.contains key = false)
    (hv : schema.values = some vs) :
    validateNestedConfig (.vstr s) key schema lines context
      = (if vs.any (fun v => (v.data.takeWhile (fun c => c != '[')).isPrefixOf s.data) then []
         else [⟨findKeyLine lines key 0, 1, invalidValueMsg s key,
               some ("warning"), some vs, none⟩]) := by
  unfold validateNestedConfig
  simp only [hk, Bool.false_eq_true, if_false]
  unfold enumCheck
  rw [hv]
  by_cases hany : vs.any (fun v => (v.data.takeWhile (fun c => c != '[')).isPrefixOf s.data) = true
  · simp [hany]
  · have hcon : vs.contains s = false := by
      by_contra hc
      have hc' : vs.contains s = true := by
        cases h : vs.contains s
        · exact absurd h hc
        · rfl
      have hs : s ∈ vs := by simpa using hc'
      have : vs.any (fun v => (v.data.takeWhile (fun c => c != '[')).isPrefixOf s.data) = true := by
        refine List.any_eq_true.2 ⟨s, hs, ?_⟩
        rw [List.isPrefixOf_iff_prefix]
        exact List.takeWhile_prefix _
      exact hany this
    simp only [Bool.not_eq_true] at hany
    have hnm : s ∉ vs := by
      intro hs
      have hc2 : vs.contains s = true := by simpa using hs
      rw [hcon] at hc2
      cases hc2
    simp [hany, hnm]

/-- C3 (amended) witness: `deploy.mode` declares values
`replicated`/`global`, `mode` is not free-form, and the string
`globalx` starts with `global`, so no warning is emitted. -/
theorem c3_enum_prefix_amended_witness :
    validateNestedConfig (.vstr ("globalx")) ("mode")
        (sNv ["string"] ("Replication mode") ["replicated", "global"]) [] ("web")
      = (if (["replicated", "global"] : List String).any
            (fun v => (v.data.takeWhile (fun c => c != '[')).isPrefixOf ("globalx").data)
         then []
         else [⟨findKeyLine [] ("mode") 0, 1, invalidValueMsg ("globalx") ("mode"),
               some ("warning"), some ["replicated", "global"], none⟩]) :=
  c3_enum_prefix_amended ("globalx") ("mode") _ _ [] ("web") (by decide) (by decide)

/-- C5 (amended): every diagnostic emitted by validate carries severity
`error` or `warning`; every diagnostic emitted by parse carries severity
`error`, except the invalid-syntax diagnostic, which is pushed without a
severity field. -/
theorem c5_severity_amended (text : String) (parsedData : Value) :
    (∀ d ∈ (parse text).errors,
        d.severity = some ("error") ∨ (d.severity = none ∧ d.message = invalidMsg))
      ∧ ∀ d ∈ validate text parsedData,
          d.severity = some ("error") ∨ d.severity = some ("warning") := by
  constructor
  · intro d hd
    exact (parse_errors_mem text d hd).2.2
  · intro d hd
    exact (validate_mem text parsedData d hd).1

/-- C5 (amended) witness: the theorem applied to the concrete document
`exC5` and its single diagnostic. -/
theorem c5_severity_amended_witness :
    (⟨1, 1, invalidMsg, none, none, none⟩ : Diag).severity = some ("error")
      ∨ ((⟨1, 1, invalidMsg, none, none, none⟩ : Diag).severity = none
         ∧ (⟨1, 1, invalidMsg, none, none, none⟩ : Diag).message = invalidMsg) :=
  (c5_severity_amended exC5 (parse exC5).data).1
    ⟨1, 1, invalidMsg, none, none, none⟩ (by decide)

/-- C6 (amended): every parse diagnostic has a 1-based line within the
input's line count; every validate diagnostic has a 1-based line within
the input's line count plus one (the overflow by one is attainable, see
the counterexample). -/
theorem c6_line_bounds_amended (text : String) (parsedData : Value) :
    (∀ d ∈ (parse text).errors, 1 ≤ d.line ∧ d.line ≤ numLines text)
      ∧ ∀ d ∈ validate text parsedData,
          1 ≤ d.line ∧ d.line ≤ numLines text + 1 := by
  constructor
  · intro d hd
    exact ⟨(parse_errors_mem text d hd).1, (parse_errors_mem text d hd).2.1⟩
  · intro d hd
    exact (validate_mem text parsedData d hd).2

/-- C6 (amended) witness: the theorem applied to the concrete document
`exC6` and its out-of-range unknown-service-key diagnostic, which sits
exactly at the line count plus one. -/
theorem c6_line_bounds_amended_witness :
    1 ≤ (⟨4, 1, unknownServiceKeyMsg ("web") ("0"), some ("error"), none,
          some (serviceChildren.map Prod.fst)⟩ : Diag).line
      ∧ (⟨4, 1, unknownServiceKeyMsg ("web") ("0"), some ("error"), none,
          some (serviceChildren.map Prod.fst)⟩ : Diag).line ≤ numLines exC6 + 1 :=
  (c6_line_bounds_amended exC6 (parse exC6).data).2
    ⟨4, 1, unknownServiceKeyMsg ("web") ("0"), some ("error"), none,
     some (serviceChildren.map Prod.fst)⟩ (by decide)

/-! ### Distinguishing the parser diagnostic messages -/

theorem jumpMsg_take3 (x y : Nat) : (jumpMsg x y).data.take 3 = ['I', 'n', 'd'] := by
  unfold jumpMsg
  rw [String.data_append, String.data_append, String.data_append,
    List.append_assoc, List.append_assoc,
    List.take_append_of_le_length (by decide)]
  decide

theorem multMsg_take3 (x y : Nat) : (multMsg x y).data.take 3 = ['I', 'n', 'c'] := by
  unfold multMsg
  rw [String.data_append, String.data_append, String.data_append,
    List.append_assoc, List.append_assoc,
    List.take_append_of_le_length (by decide)]
  decide

theorem tab_ne_jump (x y : Nat) : tabMsg ≠ jumpMsg x y := by
  intro h
  have h3 := congrArg (fun s : String => s.data.take 3) h
  simp only at h3
  rw [jumpMsg_take3] at h3
  exact absurd h3 (by decide)

theorem mult_ne_jump (p q x y : Nat) : multMsg p q ≠ jumpMsg x y := by
  intro h
  have h3 := congrArg (fun s : String => s.data.take 3) h
  simp only at h3
  rw [jumpMsg_take3, multMsg_take3] at h3
  exact absurd h3 (by decide)

theorem mismatch_ne_jump (x y : Nat) : mismatchMsg ≠ jumpMsg x y := by
  intro h
  have h3 := congrArg (fun s : String => s.data.take 3) h
  simp only at h3
  rw [jumpMsg_take3] at h3
  exact absurd h3 (by decide)

theorem invalid_ne_jump (x y : Nat) : invalidMsg ≠ jumpMsg x y := by
  intro h
  have h3 := congrArg (fun s : String => s.data.take 3) h
  simp only at h3
  rw [jumpMsg_take3] at h3
  exact absurd h3 (by decide)

theorem tab_ne_mismatch : tabMsg ≠ mismatchMsg := by decide

theorem mult_ne_mismatch (p q : Nat) : multMsg p q ≠ mismatchMsg := by
  intro h
  have h3 := congrArg (fun s : String => s.data.take 3) h
  simp only at h3
  rw [multMsg_take3] at h3
  exact absurd h3 (by decide)

theorem jump_ne_mismatch (x y : Nat) : jumpMsg x y ≠ mismatchMsg := by
  intro h
  have h3 := congrArg (fun s : String => s.data.take 3) h
  simp only at h3
  rw [jumpMsg_take3] at h3
  exact absurd h3 (by decide)

theorem invalid_ne_mismatch : invalidMsg ≠ mismatchMsg := by decide

/-! ### The stack is never empty -/

theorem popToAux_ne_nil (f : Frame) : ∀ (rest : List Frame) (i : Int),
    popToAux f rest i ≠ [] := by
  intro rest
  induction rest generalizing f with
  | nil => intro i; unfold popToAux; simp
  | cons g t ih =>
    intro i
    unfold popToAux
    split
    · exact ih _ _
    · simp

theorem popTo_ne_nil (stk : List Frame) (i : Int) (h : stk ≠ []) :
    popTo stk i ≠ [] := by
  unfold popTo
  match stk with
  | [] => exact absurd rfl h
  | f :: rest => exact popToAux_ne_nil f rest i

theorem listItemStep_ne_nil (indent : Nat) (value : List Char) (par : Frame)
    (below : List Frame) : listItemStep indent value par below ≠ [] := by
  simp only [listItemStep]
  repeat' split
  all_goals simp

theorem keyValueStep_ne_nil (indent : Nat) (trimmed : List Char)
    (rest : List (List Char)) (par : Frame) (below : List Frame) :
    keyValueStep indent trimmed rest par below ≠ [] := by
  simp only [keyValueStep]
  repeat' split
  all_goals simp

theorem stepStack_ne_nil (l : List Char) (rest : List (List Char))
    (stk : List Frame) (h : stk ≠ []) : stepStack l rest stk ≠ [] := by
  intro hcon
  simp only [stepStack] at hcon
  repeat' split at hcon
  all_goals first
    | exact h hcon
    | exact listItemStep_ne_nil _ _ _ _ hcon
    | exact keyValueStep_ne_nil _ _ _ _ _ hcon
    | exact popTo_ne_nil stk _ h (by assumption)
    | cases hcon

theorem runPLook_stack_ne_nil : ∀ (a c : List (List Char)) (st : PState),
    st.stack ≠ [] → (runPLook a c st).stack ≠ [] := by
  intro a
  induction a with
  | nil => intro c st h; exact h
  | cons l t ih =>
    intro c st h
    exact ih c _ (by rw [step_stack]; exact stepStack_ne_nil _ _ _ h)

theorem stateAt_stack_ne_nil (text : String) (j : Nat) :
    (stateAt text j).stack ≠ [] :=
  runPLook_stack_ne_nil _ _ _ (by simp [initState])

/-! ### Prefix-state lemmas -/

theorem stateAt_lineNo (text : String) (j : Nat) :
    (stateAt text j).lineNo = min j (numLines text) := by
  unfold stateAt
  rw [runPLook_lineNo]
  simp [initState, numLines]

theorem stateAt_succ (text : String) (j : Nat) (h : j < numLines text) :
    stateAt text (j + 1)
      = step ((linesOf text).getD j []) ((linesOf text).drop (j + 1)) (stateAt text j) := by
  unfold stateAt
  have htake : (linesOf text).take (j + 1)
      = (linesOf text).take j ++ [(linesOf text).getD j []] := by
    rw [List.take_succ]
    congr 1
    have hj : j < (linesOf text).length := h
    simp [List.getD, List.get?_eq_getElem?, List.getElem?_eq_getElem hj]
  have hdrop : (linesOf text).drop j
      = (linesOf text).getD j [] :: (linesOf text).drop (j + 1) := by
    have hj : j < (linesOf text).length := h
    rw [List.drop_eq_getElem_cons hj]
    simp [List.getD, List.get?_eq_getElem?, List.getElem?_eq_getElem hj]
  rw [htake, runPLook_append,
    show ([(linesOf text).getD j []] : List (List Char))
        ++ (linesOf text).drop (j + 1) = (linesOf text).drop j from by
      rw [List.singleton_append, ← hdrop]]
  rfl

theorem stateAt_errors_le (text : String) (j : Nat) :
    ∀ d ∈ (stateAt text j).errors, 1 ≤ d.line ∧ d.line ≤ j := by
  intro d hd
  unfold stateAt at hd
  obtain ⟨tail, he, hp⟩ := runPLook_errors ((linesOf text).take j) ((linesOf text).drop j) initState
  rw [he] at hd
  simp only [initState, List.nil_append] at hd
  obtain ⟨h1, h2, _⟩ := hp d hd
  simp only [initState, List.length_take] at h1 h2
  exact ⟨by omega, by omega⟩

/-! ### The indentation-jump diagnostic (C7) -/

theorem step_lastIndent (l : List Char) (rest : List (List Char)) (st : PState) :
    (step l rest st).lastIndent = stepLast l st := rfl

theorem stepLast_skip (l : List Char) (st : PState)
    (h : isContent l = false) : stepLast l st = st.lastIndent := by
  have hc : ¬trimCh l = [] → List.take 1 (trimCh l) = ['#'] := by
    simpa [isContent] using h
  by_cases h1 : trimCh l = []
  · simp [stepLast, h1]
  · simp [stepLast, h1, hc h1]

theorem stepLast_content (l : List Char) (st : PState) (n : Nat)
    (hc : isContent l = true) (hn : searchNonWs l = (n : Int)) :
    stepLast l st = n := by
  have hcc : ¬(trimCh l = []) ∧ ¬(List.take 1 (trimCh l) = ['#']) := by
    simpa [isContent, not_or] using hc
  have hge : ¬((n : Int) < 0) := by omega
  simp [stepLast, hn, hcc.1, hcc.2, hge]

theorem stateAt_lastIndent_chain (text : String) (i a : Nat)
    (hci : isContent ((linesOf text).getD i []) = true)
    (ha : searchNonWs ((linesOf text).getD i []) = (a : Int)) :
    ∀ j, i + 1 ≤ j → j ≤ numLines text →
      (∀ k, i < k → k < j → isContent ((linesOf text).getD k []) = false) →
      (stateAt text j).lastIndent = a := by
  intro j
  induction j with
  | zero => intro h; omega
  | succ n ih =>
    intro hn hle hskip
    rw [stateAt_succ text n (by omega), step_lastIndent]
    by_cases hni : i + 1 ≤ n
    · have hs : isContent ((linesOf text).getD n []) = false :=
        hskip n (by omega) (by omega)
      rw [stepLast_skip _ _ hs]
      exact ih (by omega) (by omega) (fun k h1 h2 => hskip k h1 (by omega))
    · have hni2 : n = i := by omega
      subst hni2
      exact stepLast_content _ _ a hci ha

theorem parse_errors_split (text : String) (j : Nat) (hj : j ≤ numLines text) :
    ∃ tail, (parse text).errors = (stateAt text j).errors ++ tail
      ∧ ∀ d ∈ tail, j < d.line := by
  rw [parse_eq_stateAt]
  have hdec : stateAt text (numLines text)
      = runPLook ((linesOf text).drop j) [] (stateAt text j) := by
    unfold stateAt numLines
    rw [List.take_length, List.drop_length]
    conv_lhs => rw [← List.take_append_drop j (linesOf text)]
    rw [runPLook_append, List.append_nil]
  simp only [hdec]
  obtain ⟨tail, he, hp⟩ := runPLook_errors ((linesOf text).drop j) [] (stateAt text j)
  refine ⟨tail, he, fun d hd => ?_⟩
  have h1 := (hp d hd).1
  rw [stateAt_lineNo] at h1
  omega

theorem indentChecks_jump_filter (st : PState) (b n a u : Nat)
    (hlast : st.lastIndent = a) (hunit : st.indentUnit = u)
    (hupos : 0 < u) (hab : a < b) (hjump : u < b - a) :
    (indentChecks st b n).filter
        (fun d => d.line == n && d.message.data.take 3 == ['I', 'n', 'd'])
      = [mkDiag n 1 (jumpMsg (b - a) u) (some ("error"))] := by
  have hio : indentUnitOf st b = u := by
    simp [indentUnitOf, hunit, Nat.pos_iff_ne_zero.mp hupos]
  have hb0 : 0 < b := by omega
  simp only [indentChecks, hio, hlast]
  rw [if_pos (by simp [hupos, hb0]), if_pos (by omega : b > a + u)]
  cases hmu : (b % u != 0) <;>
    simp [List.filter, mkDiag, multMsg_take3, jumpMsg_take3]

theorem stepErrs_jump_filter (l : List Char) (st : PState) (a b u : Nat)
    (hstk : st.stack ≠ [])
    (hc : isContent l = true)
    (hb : searchNonWs l = (b : Int))
    (hlast : st.lastIndent = a)
    (hunit : st.indentUnit = u)
    (hupos : 0 < u) (hab : a < b) (hjump : u < b - a) :
    (stepErrs l st).filter
        (fun d => d.line == st.lineNo + 1 && d.message.data.take 3 == ['I', 'n', 'd'])
      = [mkDiag (st.lineNo + 1) 1 (jumpMsg (b - a) u) (some ("error"))] := by
  have hcc : (trimCh l == [] || (trimCh l).take 1 == ['#']) = false := by
    simpa [isContent] using hc
  have hge : ¬(searchNonWs l < 0) := by rw [hb]; omega
  obtain ⟨par, below, hpop⟩ : ∃ par below,
      popTo st.stack ((b : Nat) : Int) = par :: below := by
    cases hp : popTo st.stack ((b : Nat) : Int) with
    | nil => exact absurd hp (popTo_ne_nil _ _ hstk)
    | cons p r => exact ⟨p, r, rfl⟩
  simp only [stepErrs, hcc, Bool.false_eq_true, if_false, hb, hge, Int.toNat_natCast,
    hpop]
  rw [if_neg (show ¬((b : Int) < 0) by omega)]
  simp only [List.filter_append]
  rw [indentChecks_jump_filter st b (st.lineNo + 1) a u hlast hunit hupos hab hjump]
  have htb : (((tabMsg).data.take 3) == ['I', 'n', 'd']) = false := by decide
  have hmm : (((mismatchMsg).data.take 3) == ['I', 'n', 'd']) = false := by decide
  have hin : (((invalidMsg).data.take 3) == ['I', 'n', 'd']) = false := by decide
  repeat' split
  all_goals simp [List.filter_cons, List.filter_nil, mkDiag, htb, hmm, hin]

/-- C7: when a content line with indent `b` follows (as the next content
line) a content line with indent `a < b`, the indentation unit `u` is
already established (nonzero) before it, and the jump `b - a` exceeds
`u`, then parse emits exactly one indentation-jump diagnostic for that
line — the filter of the diagnostics on that line whose message begins
with the jump wording (`Ind…`, distinguishing it from the other four
parser messages) is exactly the one jump diagnostic. -/
theorem c7_indentation_jump_unique (text : String) (i j a b u : Nat)
    (hij : i < j) (hj : j < numLines text)
    (hci : isContent ((linesOf text).getD i []) = true)
    (hcj : isContent ((linesOf text).getD j []) = true)
    (hskip : ∀ k, i < k → k < j → isContent ((linesOf text).getD k []) = false)
    (ha : searchNonWs ((linesOf text).getD i []) = (a : Int))
    (hb : searchNonWs ((linesOf text).getD j []) = (b : Int))
    (hunit : (stateAt text j).indentUnit = u) (hupos : 0 < u)
    (hab : a < b) (hjump : u < b - a) :
    (parse text).errors.filter
        (fun d => d.line == j + 1 && d.message.data.take 3 == ['I', 'n', 'd'])
      = [mkDiag (j + 1) 1 (jumpMsg (b - a) u) (some ("error"))] := by
  have hlast : (stateAt text j).lastIndent = a :=
    stateAt_lastIndent_chain text i a hci ha j (by omega) (by omega) hskip
  have hline : (stateAt text j).lineNo = j := by
    rw [stateAt_lineNo]; omega
  obtain ⟨tail, hsplit, htail⟩ := parse_errors_split text (j + 1) (by omega)
  rw [hsplit, List.filter_append]
  have ht : tail.filter
      (fun d => d.line == j + 1 && d.message.data.take 3 == ['I', 'n', 'd']) = [] := by
    rw [List.filter_eq_nil]
    intro d hd
    have h1 := htail d hd
    simp only [Bool.and_eq_true, beq_iff_eq, not_and]
    intro h2
    omega
  rw [ht, List.append_nil, stateAt_succ text j hj, step_errors, List.filter_append]
  have h0 : (stateAt text j).errors.filter
      (fun d => d.line == j + 1 && d.message.data.take 3 == ['I', 'n', 'd']) = [] := by
    rw [List.filter_eq_nil]
    intro d hd
    have h1 := (stateAt_errors_le text j d hd).2
    simp only [Bool.and_eq_true, beq_iff_eq, not_and]
    intro h2
    omega
  rw [h0, List.nil_append]
  have hmain := stepErrs_jump_filter ((linesOf text).getD j []) (stateAt text j) a b u
    (stateAt_stack_ne_nil text j) hcj hb hlast hunit hupos hab hjump
  simp only [hline] at hmain
  exact hmain

/-- C7 witness: on `a: / ␣␣b: / ␣␣␣␣␣␣c: 1` the third line jumps from
indent 2 to indent 6 with unit 2, and parse emits exactly the one jump
diagnostic at line 3. -/
theorem c7_indentation_jump_unique_witness :
    (parse exC7).errors.filter
        (fun d => d.line == 2 + 1 && d.message.data.take 3 == ['I', 'n', 'd'])
      = [mkDiag (2 + 1) 1 (jumpMsg (6 - 2) 2) (some ("error"))] :=
  c7_indentation_jump_unique exC7 1 2 2 6 2 (by decide) (by decide) (by decide)
    (by decide) (fun k h1 h2 => absurd h1 (by omega)) (by decide) (by decide)
    (by decide) (by decide) (by decide) (by decide)

/-! ### The list-parent-mismatch diagnostic and the dropped item (C2) -/

theorem indentChecks_mismatch_filter (st : PState) (i n : Nat) :
    (indentChecks st i n).filter
        (fun d => d.line == n && d.message == mismatchMsg) = [] := by
  simp only [indentChecks]
  repeat' split
  all_goals simp [List.filter_cons, List.filter_nil, mkDiag,
    mult_ne_mismatch, jump_ne_mismatch]

theorem stepErrs_mismatch_filter (l : List Char) (st : PState) (b : Nat)
    (par : Frame) (below : List Frame)
    (hc : isContent l = true)
    (hb : searchNonWs l = (b : Int))
    (hpop : popTo st.stack ((b : Nat) : Int) = par :: below)
    (hnarr : par.obj.isArr = false)
    (hdash : List.take 2 (trimCh l) = ['-', ' '] ∨ trimCh l = ['-']) :
    (stepErrs l st).filter
        (fun d => d.line == st.lineNo + 1 && d.message == mismatchMsg)
      = [mkDiag (st.lineNo + 1) 1 mismatchMsg (some ("error"))] := by
  have hcc : (trimCh l == [] || (trimCh l).take 1 == ['#']) = false := by
    simpa [isContent] using hc
  have h1 : List.take 1 (trimCh l) = ['-'] := by
    rcases hdash with h | h
    · have h2 := congrArg (List.take 1) h
      simpa [List.take_take] using h2
    · rw [h]; rfl
  have hdm : ((trimCh l).take 1 == ['-'] && !par.obj.isArr) = true := by
    simp [h1, hnarr]
  simp only [stepErrs, hcc, Bool.false_eq_true, if_false, hb, Int.toNat_natCast, hpop]
  rw [if_neg (show ¬((b : Int) < 0) by omega)]
  simp only [List.filter_append, hdm, if_true]
  rw [indentChecks_mismatch_filter st b (st.lineNo + 1)]
  have htb : (tabMsg == mismatchMsg) = false := by decide
  have hin : (invalidMsg == mismatchMsg) = false := by decide
  repeat' split
  all_goals simp_all [List.filter_cons, List.filter_nil, mkDiag, h1]

theorem stepStack_dash_nonarr (l : List Char) (rest : List (List Char))
    (stk : List Frame) (b : Nat) (par : Frame) (below : List Frame)
    (hc : isContent l = true)
    (hb : searchNonWs l = (b : Int))
    (hpop : popTo stk ((b : Nat) : Int) = par :: below)
    (hnarr : par.obj.isArr = false)
    (hdash : List.take 2 (trimCh l) = ['-', ' '] ∨ trimCh l = ['-']) :
    stepStack l rest stk = par :: below := by
  have hcc : (trimCh l == [] || (trimCh l).take 1 == ['#']) = false := by
    simpa [isContent] using hc
  simp only [stepStack, hcc, Bool.false_eq_true, if_false, hb, Int.toNat_natCast, hpop]
  rw [if_neg (show ¬((b : Int) < 0) by omega)]
  rcases hdash with h | h
  · rw [if_pos (show ((trimCh l).take 2 == ['-', ' ']) = true by simp [h])]
    cases hpo : par.obj <;> simp_all [listItemStep, Value.isArr]
  · rw [if_neg (show ¬(((trimCh l).take 2 == ['-', ' ']) = true) by simp [h]),
      if_pos (show (trimCh l == ['-']) = true by simp [h])]
    cases hpo : par.obj <;> simp_all [Value.isArr]

/-- C2 (amended): a list-item line (`- ` prefix or bare `-`) whose popped
parent frame is not an array makes parse emit exactly one
list-parent-mismatch error diagnostic for that line, but the item is
dropped, not integrated: the line leaves the popped stack exactly as it
was, so nothing of the line's content enters the tree. -/
theorem c2_mismatch_drop_amended (text : String) (j b : Nat)
    (par : Frame) (below : List Frame)
    (hj : j < numLines text)
    (hc : isContent ((linesOf text).getD j []) = true)
    (hdash : List.take 2 (trimCh ((linesOf text).getD j [])) = ['-', ' ']
             ∨ trimCh ((linesOf text).getD j []) = ['-'])
    (hb : searchNonWs ((linesOf text).getD j []) = (b : Int))
    (hpop : popTo (stateAt text j).stack ((b : Nat) : Int) = par :: below)
    (hnarr : par.obj.isArr = false) :
    (parse text).errors.filter
        (fun d => d.line == j + 1 && d.message == mismatchMsg)
      = [mkDiag (j + 1) 1 mismatchMsg (some ("error"))]
      ∧ (stateAt text (j + 1)).stack = par :: below := by
  have hline : (stateAt text j).lineNo = j := by
    rw [stateAt_lineNo]; omega
  constructor
  · obtain ⟨tail, hsplit, htail⟩ := parse_errors_split text (j + 1) (by omega)
    rw [hsplit, List.filter_append]
    have ht : tail.filter
        (fun d => d.line == j + 1 && d.message == mismatchMsg) = [] := by
      rw [List.filter_eq_nil]
      intro d hd
      have h1 := htail d hd
      simp only [Bool.and_eq_true, beq_iff_eq, not_and]
      intro h2
      omega
    rw [ht, List.append_nil, stateAt_succ text j hj, step_errors, List.filter_append]
    have h0 : (stateAt text j).errors.filter
        (fun d => d.line == j + 1 && d.message == mismatchMsg) = [] := by
      rw [List.filter_eq_nil]
      intro d hd
      have h1 := (stateAt_errors_le text j d hd).2
      simp only [Bool.and_eq_true, beq_iff_eq, not_and]
      intro h2
      omega
    rw [h0, List.nil_append]
    have hmain := stepErrs_mismatch_filter ((linesOf text).getD j [])
      (stateAt text j) b par below hc hb hpop hnarr hdash
    simp only [hline] at hmain
    exact hmain
  · rw [stateAt_succ text j hj, step_stack]
    exact stepStack_dash_nonarr _ _ _ b par below hc hb hpop hnarr hdash

/-- C2 (amended) witness: on `a: 1` then `- b`, the second line's popped
parent is the root object `{a: 1}` (not an array); parse emits the one
mismatch diagnostic at line 2 and the stack after the line is that same
popped frame, dropping `b`. -/
theorem c2_mismatch_drop_amended_witness :
    (parse exC2).errors.filter
        (fun d => d.line == 1 + 1 && d.message == mismatchMsg)
      = [mkDiag (1 + 1) 1 mismatchMsg (some ("error"))]
      ∧ (stateAt exC2 (1 + 1)).stack
        = [Frame.mk (-1) (.vobj [(("a"), .vnum 1)]) []] :=
  c2_mismatch_drop_amended exC2 1 0 (Frame.mk (-1) (.vobj [(("a"), .vnum 1)]) []) []
    (by decide) (by decide) (Or.inl (by decide)) (by decide) (by decide) (by decide)

/-! ### The fragment filter, stable partition and cap of getSuggestions (C9) -/

theorem insStable_append_of_false {α : Type} (lt : α → α → Bool) (x : α) :
    ∀ l : List α, (∀ y ∈ l, lt x y = false) → insStable lt x l = l ++ [x] := by
  intro l
  induction l with
  | nil => intro h; rfl
  | cons y ys ih =>
    intro h
    unfold insStable
    rw [if_neg (by simp [h y (List.mem_cons_self y ys)])]
    rw [ih (fun z hz => h z (List.mem_cons_of_mem y hz))]
    rfl

theorem insStable_partition {α : Type} (p : α → Bool) (x : α) :
    ∀ (A B : List α), (∀ y ∈ A, p y = true) → (∀ y ∈ B, p y = false) → p x = true →
      insStable (fun a b => p a && !(p b)) x (A ++ B) = A ++ x :: B := by
  intro A
  induction A with
  | nil =>
    intro B hA hB hx
    cases B with
    | nil => rfl
    | cons b bs =>
      show insStable _ x (b :: bs) = x :: b :: bs
      unfold insStable
      rw [if_pos (by simp [hx, hB b (List.mem_cons_self b bs)])]
  | cons a as ih =>
    intro B hA hB hx
    show insStable _ x (a :: (as ++ B)) = a :: (as ++ x :: B)
    unfold insStable
    rw [if_neg (by simp [hA a (List.mem_cons_self a as)])]
    rw [ih B (fun z hz => hA z (List.mem_cons_of_mem a hz)) hB hx]

theorem jsSortStable_partition_aux {α : Type} (p : α → Bool) :
    ∀ (l A B : List α), (∀ y ∈ A, p y = true) → (∀ y ∈ B, p y = false) →
      l.foldl (fun acc x => insStable (fun a b => p a && !(p b)) x acc) (A ++ B)
        = (A ++ l.filter p) ++ (B ++ l.filter (fun x => !(p x))) := by
  intro l
  induction l with
  | nil => intro A B hA hB; simp
  | cons x t ih =>
    intro A B hA hB
    show t.foldl _ (insStable _ x (A ++ B)) = _
    cases hx : p x with
    | true =>
      rw [insStable_partition p x A B hA hB hx,
        show A ++ x :: B = (A ++ [x]) ++ B by simp,
        ih (A ++ [x]) B ?side hB]
      · simp [List.filter_cons, hx]
      · intro z hz
        rcases List.mem_append.1 hz with h | h
        · exact hA z h
        · simp only [List.mem_singleton] at h
          subst h
          exact hx
    | false =>
      rw [insStable_append_of_false _ x (A ++ B) (by intro y hy; simp [hx]),
        show (A ++ B) ++ [x] = A ++ (B ++ [x]) by simp,
        ih A (B ++ [x]) hA ?side2]
      · simp [List.filter_cons, hx]
      · intro z hz
        rcases List.mem_append.1 hz with h | h
        · exact hB z h
        · simp only [List.mem_singleton] at h
          subst h
          exact hx

theorem jsSortStable_partition {α : Type} (p : α → Bool) (l : List α) :
    jsSortStable (fun a b => p a && !(p b)) l
      = l.filter p ++ l.filter (fun x => !(p x)) := by
  have h := jsSortStable_partition_aux p l [] [] (by simp) (by simp)
  simpa [jsSortStable] using h

theorem jsSortStable_sugStarts (lw : List Char) (l : List Sug) :
    jsSortStable (fun a b => sugStarts lw a && !(sugStarts lw b)) l
      = l.filter (sugStarts lw) ++ l.filter (fun s => !(sugStarts lw s)) :=
  jsSortStable_partition (sugStarts lw) l

/-- C9: with a non-empty typed fragment, `getSuggestions` is the
candidate list filtered to the labels that case-insensitively start with
or contain the fragment, with all starts-with matches placed before the
contains-only matches (each side keeping its prior order), capped at 15;
in particular at most 15 entries come back and every one of them
matches the fragment. -/
theorem c9_fragment_filter_sort_cap (text : String) (cursorLine cursorCol : Nat)
    (bc typed : List Char)
    (hbc : bc = (((splitNlCh text.data).get? (cursorLine - 1)).getD []).take cursorCol)
    (hty : typed = typedFragment bc (bc.contains ':'))
    (hne : typed ≠ []) :
    getSuggestions text cursorLine cursorCol
      = (((sugBase (splitNlCh text.data) cursorLine cursorCol).filter
            (sugMatches (lowerL typed))).filter (sugStarts (lowerL typed))
         ++ ((sugBase (splitNlCh text.data) cursorLine cursorCol).filter
            (sugMatches (lowerL typed))).filter
              (fun s => !(sugStarts (lowerL typed) s))).take 15
      ∧ (getSuggestions text cursorLine cursorCol).length ≤ 15
      ∧ ∀ s ∈ getSuggestions text cursorLine cursorCol,
          sugMatches (lowerL typed) s = true := by
  subst hbc
  subst hty
  have hmain : getSuggestions text cursorLine cursorCol
      = (((sugBase (splitNlCh text.data) cursorLine cursorCol).filter
            (sugMatches (lowerL (typedFragment
              ((((splitNlCh text.data).get? (cursorLine - 1)).getD []).take cursorCol)
              (((((splitNlCh text.data).get? (cursorLine - 1)).getD []).take
                  cursorCol).contains ':'))))).filter
            (sugStarts (lowerL (typedFragment
              ((((splitNlCh text.data).get? (cursorLine - 1)).getD []).take cursorCol)
              (((((splitNlCh text.data).get? (cursorLine - 1)).getD []).take
                  cursorCol).contains ':'))))
         ++ ((sugBase (splitNlCh text.data) cursorLine cursorCol).filter
            (sugMatches (lowerL (typedFragment
              ((((splitNlCh text.data).get? (cursorLine - 1)).getD []).take cursorCol)
              (((((splitNlCh text.data).get? (cursorLine - 1)).getD []).take
                  cursorCol).contains ':'))))).filter
              (fun s => !(sugStarts (lowerL (typedFragment
                ((((splitNlCh text.data).get? (cursorLine - 1)).getD []).take cursorCol)
                (((((splitNlCh text.data).get? (cursorLine - 1)).getD []).take
                    cursorCol).contains ':')))
                s))).take 15 := by
    have hemp : (!(typedFragment
        ((((splitNlCh text.data).get? (cursorLine - 1)).getD []).take cursorCol)
        (((((splitNlCh text.data).get? (cursorLine - 1)).getD []).take
            cursorCol).contains ':')).isEmpty) = true := by
      cases h : typedFragment
          ((((splitNlCh text.data).get? (cursorLine - 1)).getD []).take cursorCol)
          (((((splitNlCh text.data).get? (cursorLine - 1)).getD []).take
              cursorCol).contains ':') with
      | nil => exact absurd h hne
      | cons c r => rfl
    simp only [getSuggestions, hemp, if_true, jsSortStable_sugStarts]
  refine ⟨hmain, ?_, ?_⟩
  · rw [hmain]
    exact List.length_take_le 15 _
  · intro s hs
    rw [hmain] at hs
    have h1 := List.take_subset 15 _ hs
    rcases List.mem_append.1 h1 with h2 | h2
    · exact (List.mem_filter.1 (List.mem_filter.1 h2).1).2
    · exact (List.mem_filter.1 (List.mem_filter.1 h2).1).2

/-- C9 witness: typing `im` on `␣␣␣␣im` under `services: / web:` gives
suggestions that all match `im`, starts-with matches first, at most 15. -/
theorem c9_fragment_filter_sort_cap_witness :
    getSuggestions exC9 3 6
      = (((sugBase (splitNlCh exC9.data) 3 6).filter
            (sugMatches (lowerL (("im").data)))).filter
            (sugStarts (lowerL (("im").data)))
         ++ ((sugBase (splitNlCh exC9.data) 3 6).filter
            (sugMatches (lowerL (("im").data)))).filter
              (fun s => !(sugStarts (lowerL (("im").data)) s))).take 15
      ∧ (getSuggestions exC9 3 6).length ≤ 15
      ∧ ∀ s ∈ getSuggestions exC9 3 6,
          sugMatches (lowerL (("im").data)) s = true :=
  c9_fragment_filter_sort_cap exC9 3 6 (("    im").data) (("im").data)
    (by decide) (by decide) (by decide)

/-! ### Truthiness, not presence, in the required-field check (C10) -/

/-- C10: the required image/build check tests JS truthiness of the two
property values, not key presence: a service entry that is a truthy
object, carries an `image` key whose parsed value is `null`, and has no
truthy `build`, still receives the missing-image-or-build error. -/
theorem c10_truthiness_not_presence (text : String) (parsedData sv svc : Value)
    (name : String)
    (hpt : parsedData.truthy = true)
    (hpk : parsedData.jsKeys.length ≠ 0)
    (hsv : parsedData.jsGet ("services") = some sv)
    (hsvt : sv.truthy = true) (hsvo : sv.isObjType = true)
    (hmem : (name, svc) ∈ sv.jsEntries)
    (hsvct : svc.truthy = true) (hsvco : svc.isObjType = true)
    (himg : svc.jsGet ("image") = some .vnull)
    (hbld : truthyO (svc.jsGet ("build")) = false) :
    (⟨findKeyLine (splitNlCh text.data) name 0, 1, missingMsg name,
      some ("error"), none, none⟩ : Diag) ∈ validate text parsedData := by
  have hguard : (!parsedData.truthy || parsedData.jsKeys.length == 0) = false := by
    simp [hpt, hpk]
  simp only [validate, hguard, Bool.false_eq_true, if_false]
  refine List.mem_append.2 (Or.inl (List.mem_append.2 (Or.inl
    (List.mem_append.2 (Or.inl (List.mem_append.2 (Or.inl
      (List.mem_append.2 (Or.inr ?_)))))))))
  simp only [servicesErrs, hsv]
  rw [if_pos (by simp [hsvt, hsvo])]
  unfold validateServices
  refine List.mem_flatMap.2 ⟨(name, svc), hmem, ?_⟩
  simp only [svcEntryErrs]
  rw [if_neg (by simp [hsvct, hsvco])]
  refine List.mem_append.2 (Or.inl ?_)
  rw [if_pos (by simp only [himg]; rw [hbld]; decide)]
  exact List.mem_singleton.2 rfl

/-- C10 witness: `image:` with empty value parses to `null`; the service
`web` of `exC10` then still gets the missing diagnostic, anchored by
`findKeyLine` at line 2. -/
theorem c10_truthiness_not_presence_witness :
    (⟨findKeyLine (splitNlCh exC10.data) ("web") 0, 1, missingMsg ("web"),
      some ("error"), none, none⟩ : Diag)
      ∈ validate exC10 (parse exC10).data :=
  c10_truthiness_not_presence exC10 (parse exC10).data
    (.vobj [(("web"), .vobj [(("image"), .vnull)])])
    (.vobj [(("image"), .vnull)]) ("web")
    (by decide) (by decide) (by decide) (by decide) (by decide) (by decide)
    (by decide) (by decide) (by decide) (by decide)

/-! ### Locating and counting the missing image/build diagnostic (C4) -/

theorem data_take1 (x y : String) (c : Char) (h : x.data.take 1 = [c]) :
    ((x ++ y).data).take 1 = [c] := by
  have hl : 1 ≤ x.data.length := by
    cases hx : x.data with
    | nil => rw [hx] at h; cases h
    | cons a t => simp [hx]
  rw [String.data_append, List.take_append_of_le_length hl, h]

theorem missingMsg_take1 (n : String) : (missingMsg n).data.take 1 = ['S'] := by
  unfold missingMsg
  exact data_take1 _ _ _ (data_take1 _ _ _ (by decide))

theorem invalidValueMsg_take1 (a b : String) :
    (invalidValueMsg a b).data.take 1 = ['I'] := by
  unfold invalidValueMsg
  exact data_take1 _ _ _ (data_take1 _ _ _ (data_take1 _ _ _ (data_take1 _ _ _
    (by decide))))

theorem unknownNestedMsg_take1 (a b c : String) :
    (unknownNestedMsg a b c).data.take 1 = ['U'] := by
  unfold unknownNestedMsg
  exact data_take1 _ _ _ (data_take1 _ _ _ (data_take1 _ _ _ (data_take1 _ _ _
    (data_take1 _ _ _ (by decide)))))

theorem unknownServiceKeyMsg_take1 (a b : String) :
    (unknownServiceKeyMsg a b).data.take 1 = ['U'] := by
  unfold unknownServiceKeyMsg
  exact data_take1 _ _ _ (data_take1 _ _ _ (data_take1 _ _ _ (data_take1 _ _ _
    (by decide))))

theorem beq_missing_false (msg name : String) (c : Char)
    (h : msg.data.take 1 = [c]) (hc : c ≠ 'S') :
    (msg == missingMsg name) = false := by
  rw [beq_eq_false_iff_ne]
  intro hcon
  rw [hcon, missingMsg_take1] at h
  injection h with h1 h2
  exact hc h1.symm

theorem missingMsg_inj (a b : String) (h : missingMsg a = missingMsg b) : a = b := by
  unfold missingMsg at h
  have h2 := congrArg String.data h
  simp only [String.data_append] at h2
  have h3 := List.append_cancel_right h2
  have h4 := List.append_cancel_left h3
  cases a with
  | mk la =>
    cases b with
    | mk lb => exact congrArg String.mk h4

theorem enumCheck_not_missing (s key : String) (vals : Option (List String))
    (lines : List (List Char)) (name : String) :
    ∀ d ∈ enumCheck s key vals lines, (d.message == missingMsg name) = false := by
  intro d hd
  unfold enumCheck at hd
  repeat' split at hd
  all_goals simp only [List.mem_singleton, List.not_mem_nil] at hd
  all_goals first
    | (subst hd
       exact beq_missing_false _ name 'I' (invalidValueMsg_take1 s key) (by decide))
    | cases hd

mutual

theorem vnc_not_missing : ∀ (config : Value) (key : String) (schema : SchemaNode)
    (lines : List (List Char)) (context name : String) (d : Diag),
    d ∈ validateNestedConfig config key schema lines context →
      (d.message == missingMsg name) = false
  | .vnull, key, schema, lines, context, name, d, hd => by
    simp [validateNestedConfig] at hd
  | .varr xs, key, schema, lines, context, name, d, hd => by
    simp [validateNestedConfig] at hd
  | .vbool b, key, schema, lines, context, name, d, hd => by
    unfold validateNestedConfig at hd
    split at hd <;> cases hd
  | .vnum q, key, schema, lines, context, name, d, hd => by
    unfold validateNestedConfig at hd
    split at hd <;> cases hd
  | .vstr s, key, schema, lines, context, name, d, hd => by
    unfold validateNestedConfig at hd
    split at hd
    · cases hd
    · exact enumCheck_not_missing s key schema.values lines name d hd
  | .vobj fs, key, schema, lines, context, name, d, hd => by
    unfold validateNestedConfig at hd
    split at hd
    · cases hd
    · split at hd
      · exact vncF_not_missing fs _ lines context key name d hd
      · cases hd

theorem vncF_not_missing : ∀ (fs : List (String × Value))
    (ch : List (String × SchemaNode)) (lines : List (List Char))
    (context key name : String) (d : Diag),
    d ∈ vncFields fs ch lines context key →
      (d.message == missingMsg name) = false
  | [], ch, lines, context, key, name, d, hd => by simp [vncFields] at hd
  | (sk, sv) :: t, ch, lines, context, key, name, d, hd => by
    unfold vncFields at hd
    rcases List.mem_append.1 hd with h | h
    · split at h
      · cases h
      · split at h
        · cases h
        · split at h
          · simp only [List.mem_singleton] at h
            subst h
            exact beq_missing_false _ name 'U' (unknownNestedMsg_take1 sk context key)
              (by decide)
          · exact vnc_not_missing sv sk _ lines _ name d h
    · exact vncF_not_missing t ch lines context key name d h

end

theorem svcKeyErrs_not_missing (lines : List (List Char)) (serviceName : String)
    (q : String × Value) (name : String) :
    ∀ d ∈ svcKeyErrs lines serviceName q, (d.message == missingMsg name) = false := by
  intro d hd
  unfold svcKeyErrs at hd
  repeat' split at hd
  all_goals first
    | (simp only [List.mem_singleton, List.not_mem_nil] at hd
       subst hd
       exact beq_missing_false _ name 'U' (unknownServiceKeyMsg_take1 q.1 serviceName)
         (by decide))
    | exact vnc_not_missing q.2 q.1 _ lines serviceName name d hd
    | cases hd

theorem topKeyErr_not_missing (lines : List (List Char)) (key name : String) :
    ∀ d ∈ topKeyErr lines key, (d.message == missingMsg name) = false := by
  intro d hd
  unfold topKeyErr at hd
  repeat' split at hd
  all_goals simp only [List.mem_singleton, List.not_mem_nil] at hd
  all_goals first
    | (subst hd
       exact beq_missing_false _ name dq
         (data_take1 _ _ _ (data_take1 _ _ _ (by decide))) (by decide))
    | (subst hd
       exact beq_missing_false _ name 'U'
         (data_take1 _ _ _ (data_take1 _ _ _ (by decide))) (by decide))
    | cases hd

theorem versionCheckErrs_not_missing (lines : List (List Char)) (pd : Value)
    (name : String) :
    ∀ d ∈ versionCheckErrs lines pd, (d.message == missingMsg name) = false := by
  intro d hd
  unfold versionCheckErrs at hd
  repeat' split at hd
  all_goals simp only [List.mem_singleton, List.not_mem_nil] at hd
  all_goals first
    | (subst hd
       exact beq_missing_false _ name 'I'
         (data_take1 _ _ _ (data_take1 _ _ _ (by decide))) (by decide))
    | cases hd

theorem sectKeyErrs_not_missing (lines : List (List Char))
    (sectionName : String) (schemaChildren : List (String × SchemaNode))
    (itemName : String) (q : String × Value) (name : String) :
    ∀ d ∈ sectKeyErrs lines sectionName schemaChildren itemName q,
      (d.message == missingMsg name) = false := by
  intro d hd
  unfold sectKeyErrs at hd
  repeat' split at hd
  all_goals simp only [List.mem_singleton, List.not_mem_nil] at hd
  all_goals first
    | (subst hd
       exact beq_missing_false _ name 'U'
         (data_take1 _ _ _ (data_take1 _ _ _ (data_take1 _ _ _ (data_take1 _ _ _
           (data_take1 _ _ _ (data_take1 _ _ _ (by decide))))))) (by decide))
    | cases hd

theorem namedSectionErrs_not_missing (lines : List (List Char)) (pd : Value)
    (nm : String) (schema : Option SchemaNode) (name : String) :
    ∀ d ∈ namedSectionErrs lines pd nm schema,
      (d.message == missingMsg name) = false := by
  intro d hd
  unfold namedSectionErrs at hd
  split at hd
  · split at hd
    · unfold validateSection at hd
      split at hd
      · cases hd
      · obtain ⟨p, hp, hd2⟩ := List.mem_flatMap.1 hd
        unfold sectEntryErrs at hd2
        repeat' split at hd2
        all_goals first
          | (obtain ⟨q, hq, hd3⟩ := List.mem_flatMap.1 hd2
             exact sectKeyErrs_not_missing lines nm _ p.1 q name d hd3)
          | cases hd2
    · cases hd
  · cases hd

theorem svcEntryErrs_missing_filter_ne (lines : List (List Char)) (name : String)
    (q : String × Value) (hne : q.1 ≠ name) :
    (svcEntryErrs lines q).filter (fun d => d.message == missingMsg name) = [] := by
  rw [List.filter_eq_nil]
  intro d hd
  unfold svcEntryErrs at hd
  split at hd
  · cases hd
  · rcases List.mem_append.1 hd with h | h
    · split at h
      · simp only [List.mem_singleton] at h
        subst h
        simp only [Bool.not_eq_true]
        exact beq_eq_false_iff_ne.mpr (fun hcon => hne (missingMsg_inj _ _ hcon))
      · cases h
    · obtain ⟨r, hr, hd3⟩ := List.mem_flatMap.1 h
      simp only [Bool.not_eq_true]
      exact svcKeyErrs_not_missing lines q.1 r name d hd3

theorem svcEntryErrs_missing_filter_eq (lines : List (List Char)) (name : String)
    (svc : Value)
    (hsvct : svc.truthy = true) (hsvco : svc.isObjType = true)
    (himg : truthyO (svc.jsGet ("image")) = false)
    (hbld : truthyO (svc.jsGet ("build")) = false) :
    (svcEntryErrs lines (name, svc)).filter (fun d => d.message == missingMsg name)
      = [⟨findKeyLine lines name 0, 1, missingMsg name, some ("error"), none, none⟩] := by
  unfold svcEntryErrs
  rw [if_neg (by simp [hsvct, hsvco])]
  rw [if_pos (by simp only [himg, hbld]; decide)]
  rw [List.filter_append]
  have h1 : (List.filter (fun d => d.message == missingMsg name)
      [(⟨findKeyLine lines name 0, 1, missingMsg name, some ("error"), none,
        none⟩ : Diag)])
      = [⟨findKeyLine lines name 0, 1, missingMsg name, some ("error"), none, none⟩] := by
    simp [List.filter_cons]
  have h2 : (((name, svc).2.jsEntries.flatMap (svcKeyErrs lines (name, svc).1)).filter
      (fun d => d.message == missingMsg name)) = [] := by
    rw [List.filter_eq_nil]
    intro d hd
    obtain ⟨r, hr, hd3⟩ := List.mem_flatMap.1 hd
    simp only [Bool.not_eq_true]
    exact svcKeyErrs_not_missing lines (name, svc).1 r name d hd3
  rw [h1, h2, List.append_nil]

theorem entries_missing_filter_nil (lines : List (List Char)) (name : String) :
    ∀ entries : List (String × Value), (∀ r ∈ entries, r.1 ≠ name) →
      ((entries.flatMap (svcEntryErrs lines)).filter
        (fun d => d.message == missingMsg name)) = [] := by
  intro entries
  induction entries with
  | nil => intro h; rfl
  | cons q t ih =>
    intro h
    rw [List.flatMap_cons, List.filter_append,
      svcEntryErrs_missing_filter_ne lines name q (h q (List.mem_cons_self q t)),
      List.nil_append]
    exact ih (fun r hr => h r (List.mem_cons_of_mem q hr))

theorem entries_missing_filter (lines : List (List Char)) (name : String)
    (svc : Value)
    (hsvct : svc.truthy = true) (hsvco : svc.isObjType = true)
    (himg : truthyO (svc.jsGet ("image")) = false)
    (hbld : truthyO (svc.jsGet ("build")) = false) :
    ∀ entries : List (String × Value), (name, svc) ∈ entries →
      (entries.map Prod.fst).Nodup →
      ((entries.flatMap (svcEntryErrs lines)).filter
        (fun d => d.message == missingMsg name))
      = [⟨findKeyLine lines name 0, 1, missingMsg name, some ("error"), none, none⟩] := by
  intro entries
  induction entries with
  | nil => intro h; cases h
  | cons q t ih =>
    intro hmem hnd
    rw [List.flatMap_cons, List.filter_append]
    rcases List.mem_cons.1 hmem with h | h
    · have hq : q = (name, svc) := h.symm
      subst hq
      rw [svcEntryErrs_missing_filter_eq lines name svc hsvct hsvco himg hbld]
      have hnin : ∀ r ∈ t, r.1 ≠ name := by
        intro r hr hcon
        apply (List.nodup_cons.1 hnd).1
        have hmm2 : r.1 ∈ List.map Prod.fst t := List.mem_map_of_mem Prod.fst hr
        rw [hcon] at hmm2
        exact hmm2
      rw [entries_missing_filter_nil lines name t hnin, List.append_nil]
    · have hq : q.1 ≠ name := by
        intro hcon
        apply (List.nodup_cons.1 hnd).1
        rw [hcon]
        exact List.mem_map_of_mem Prod.fst h
      rw [svcEntryErrs_missing_filter_ne lines name q hq, List.nil_append]
      exact ih h (List.nodup_cons.1 hnd).2

/-- C4 (amended): a service entry that is a truthy object with neither a
truthy `image` nor a truthy `build` (and whose name is unique among the
service names) receives exactly one missing-image-or-build error from
validate, and its line is `findKeyLine lines name 0` — the first line
from the top of the document whose text matches the service name as a
key, which need not be the line declaring the service (see the
counterexample). -/
theorem c4_missing_unique_at_findKeyLine (text : String) (parsedData sv svc : Value)
    (name : String)
    (hpt : parsedData.truthy = true)
    (hpk : parsedData.jsKeys.length ≠ 0)
    (hsv : parsedData.jsGet ("services") = some sv)
    (hsvt : sv.truthy = true) (hsvo : sv.isObjType = true)
    (hnd : (sv.jsEntries.map Prod.fst).Nodup)
    (hmem : (name, svc) ∈ sv.jsEntries)
    (hsvct : svc.truthy = true) (hsvco : svc.isObjType = true)
    (himg : truthyO (svc.jsGet ("image")) = false)
    (hbld : truthyO (svc.jsGet ("build")) = false) :
    (validate text parsedData).filter (fun d => d.message == missingMsg name)
      = [⟨findKeyLine (splitNlCh text.data) name 0, 1, missingMsg name,
          some ("error"), none, none⟩] := by
  have hguard : (!parsedData.truthy || parsedData.jsKeys.length == 0) = false := by
    simp [hpt, hpk]
  simp only [validate, hguard, Bool.false_eq_true, if_false]
  simp only [List.filter_append]
  have htop : ((topLevelErrs (splitNlCh text.data) parsedData).filter
      (fun d => d.message == missingMsg name)) = [] := by
    rw [List.filter_eq_nil]
    intro d hd
    obtain ⟨k, hk, hd2⟩ := List.mem_flatMap.1 hd
    simp only [Bool.not_eq_true]
    exact topKeyErr_not_missing (splitNlCh text.data) k name d hd2
  have hver : ((versionCheckErrs (splitNlCh text.data) parsedData).filter
      (fun d => d.message == missingMsg name)) = [] := by
    rw [List.filter_eq_nil]
    intro d hd
    simp only [Bool.not_eq_true]
    exact versionCheckErrs_not_missing (splitNlCh text.data) parsedData name d hd
  have hsec : ∀ nm sc, ((namedSectionErrs (splitNlCh text.data) parsedData nm sc).filter
      (fun d => d.message == missingMsg name)) = [] := by
    intro nm sc
    rw [List.filter_eq_nil]
    intro d hd
    simp only [Bool.not_eq_true]
    exact namedSectionErrs_not_missing (splitNlCh text.data) parsedData nm sc name d hd
  have hsvcs : ((servicesErrs (splitNlCh text.data) parsedData).filter
      (fun d => d.message == missingMsg name))
      = [⟨findKeyLine (splitNlCh text.data) name 0, 1, missingMsg name,
          some ("error"), none, none⟩] := by
    simp only [servicesErrs, hsv]
    rw [if_pos (by simp [hsvt, hsvo])]
    unfold validateServices
    exact entries_missing_filter (splitNlCh text.data) name svc hsvct hsvco himg hbld
      sv.jsEntries hmem hnd
  rw [htop, hver, hsvcs, hsec, hsec, hsec, hsec]
  simp

/-- C4 (amended) witness: on `exC4`, the service `web` is declared on
line 4 but `findKeyLine` anchors its single missing diagnostic at the
first lexical match of `web:`, line 3. -/
theorem c4_missing_unique_at_findKeyLine_witness :
    (validate exC4 (parse exC4).data).filter
        (fun d => d.message == missingMsg ("web"))
      = [⟨findKeyLine (splitNlCh exC4.data) ("web") 0, 1, missingMsg ("web"),
          some ("error"), none, none⟩] :=
  c4_missing_unique_at_findKeyLine exC4 (parse exC4).data
    (.vobj [(("db"), .vobj [(("web"), .vnum 1)]),
            (("web"), .vobj [(("x"), .vnum 1)])])
    (.vobj [(("x"), .vnum 1)]) ("web")
    (by decide) (by decide) (by decide) (by decide) (by decide) (by decide)
    (by decide) (by decide) (by decide) (by decide) (by decide)

/-! ### The flat round-trip (C1) -/

theorem noEdgeWs_parts (l : List Char) (h : noEdgeWs l = true) :
    l ≠ [] ∧ ((l.take 1).any isWs) = false ∧ ((l.reverse.take 1).any isWs) = false := by
  unfold noEdgeWs at h
  rw [Bool.and_eq_true, Bool.and_eq_true] at h
  obtain ⟨⟨ha, hb⟩, hc⟩ := h
  exact ⟨by simpa using ha, by simpa using hb, by simpa using hc⟩

theorem trimCh_eq_self (l : List Char) (h : noEdgeWs l = true) : trimCh l = l := by
  obtain ⟨h0, h1, h2⟩ := noEdgeWs_parts l h
  cases l with
  | nil => exact absurd rfl h0
  | cons c t =>
    have hc : isWs c = false := by simpa using h1
    show (((c :: t).dropWhile isWs).reverse.dropWhile isWs).reverse = c :: t
    rw [List.dropWhile_cons, if_neg (by simp [hc])]
    cases hr : (c :: t).reverse with
    | nil =>
      have := congrArg List.length hr
      simp at this
    | cons d r =>
      have hd : isWs d = false := by
        rw [hr] at h2
        simpa using h2
      rw [List.dropWhile_cons, if_neg (by simp [hd]), ← hr, List.reverse_reverse]

theorem searchNonWs_head (c : Char) (t : List Char) (h : isWs c = false) :
    searchNonWs (c :: t) = 0 := by
  simp [searchNonWs, h]

theorem idxOf_first (k rest : List Char) (hk : k.contains ':' = false) :
    idxOf ':' (k ++ ':' :: rest) = (k.length : Int) := by
  induction k with
  | nil => simp [idxOf]
  | cons a t ih =>
    rw [List.contains_cons, Bool.or_eq_false_iff] at hk
    have ha : (a == ':') = false := by
      cases hq : (a == ':') with
      | false => rfl
      | true =>
        have ha2 : a = ':' := by simpa using hq
        subst ha2
        simpa using hk.1
    show idxOf ':' (a :: (t ++ ':' :: rest)) = ((a :: t).length : Int)
    simp only [idxOf, ha, Bool.false_eq_true, if_false]
    rw [ih hk.2, if_neg (by omega)]
    simp only [List.length_cons]
    omega

theorem take1_append_ne (a b : List Char) (ha : a ≠ []) :
    (a ++ b).take 1 = a.take 1 := by
  cases a with
  | nil => exact absurd rfl ha
  | cons c t => simp

theorem splitNlCh_line (l rest : List Char) (h : l.contains '\n' = false) :
    splitNlCh (l ++ '\n' :: rest) = l :: splitNlCh rest := by
  induction l with
  | nil => simp [splitNlCh]
  | cons c t ih =>
    rw [List.contains_cons, Bool.or_eq_false_iff] at h
    have hc : (c == '\n') = false := by
      cases hq : (c == '\n') with
      | false => rfl
      | true =>
        have hc2 : c = '\n' := by simpa using hq
        subst hc2
        simpa using h.1
    show splitNlCh (c :: (t ++ '\n' :: rest)) = (c :: t) :: splitNlCh rest
    conv_lhs => rw [splitNlCh]
    rw [if_neg (by simp [hc])]
    rw [ih h.2]

theorem objSet_fresh (k : String) (v : Value) :
    ∀ acc : List (String × Value), (∀ q ∈ acc, q.1 ≠ k) →
      objSet acc k v = acc ++ [(k, v)] := by
  intro acc
  induction acc with
  | nil => intro h; rfl
  | cons q t ih =>
    intro h
    show objSet (q :: t) k v = q :: (t ++ [(k, v)])
    unfold objSet
    rw [if_neg (by simp [h q (List.mem_cons_self q t)])]
    rw [ih (fun r hr => h r (List.mem_cons_of_mem q hr))]

theorem trimCh_space (vs : List Char) (h : trimCh vs = vs) :
    trimCh (' ' :: vs) = vs := by
  show (((' ' :: vs).dropWhile isWs).reverse.dropWhile isWs).reverse = vs
  rw [List.dropWhile_cons, if_pos (by decide)]
  exact h

theorem noEdgeWs_render (k vs : List Char)
    (hk : noEdgeWs k = true) (hv : noEdgeWs vs = true) :
    noEdgeWs (k ++ ':' :: ' ' :: vs) = true := by
  obtain ⟨hk0, hk1, hk2⟩ := noEdgeWs_parts k hk
  obtain ⟨hv0, hv1, hv2⟩ := noEdgeWs_parts vs hv
  have h0 : (k ++ ':' :: ' ' :: vs) ≠ [] := by simp
  have h1 : ((k ++ ':' :: ' ' :: vs).take 1) = k.take 1 := take1_append_ne k _ hk0
  have h2 : ((k ++ ':' :: ' ' :: vs).reverse.take 1) = vs.reverse.take 1 := by
    rw [List.reverse_append]
    have hrv : (':' :: ' ' :: vs).reverse = vs.reverse ++ [' ', ':'] := by
      simp
    rw [hrv, List.append_assoc]
    exact take1_append_ne _ _ (by
      intro hcon
      exact hv0 (by simpa using congrArg List.reverse hcon))
  simp only [noEdgeWs, h1, h2, hk1, hv2]
  simp [h0]

theorem strMk_data (s : String) : String.mk s.data = s := by
  cases s with
  | mk d => rfl

theorem keyOk_parts (k : String) (h : keyOk k = true) :
    noEdgeWs k.data = true ∧ k.data.contains ':' = false
      ∧ k.data.contains '\n' = false
      ∧ k.data.take 1 ≠ ['#'] ∧ k.data.take 1 ≠ ['-'] := by
  unfold keyOk at h
  rw [Bool.and_eq_true, Bool.and_eq_true, Bool.and_eq_true, Bool.and_eq_true] at h
  obtain ⟨⟨⟨⟨h1, h2⟩, h3⟩, h4⟩, h5⟩ := h
  exact ⟨h1, by simpa using h2, by simpa using h3, by simpa using h4,
    by simpa using h5⟩

theorem scalarOk_parts (v : Value) (h : scalarOk v = true) :
    noEdgeWs (valueToString v).data = true
      ∧ (valueToString v).data.contains '\n' = false
      ∧ (valueToString v).data ≠ ("|").data
      ∧ (valueToString v).data ≠ (">").data
      ∧ (valueToString v).data ≠ ("|-").data
      ∧ (valueToString v).data ≠ (">-").data
      ∧ (valueToString v).data ≠ ("[]").data
      ∧ (valueToString v).data ≠ ("{}").data
      ∧ parseValue (valueToString v).data = v := by
  cases v <;> first
    | (simp only [scalarOk] at h
       rw [Bool.and_eq_true, Bool.and_eq_true, Bool.and_eq_true, Bool.and_eq_true,
         Bool.and_eq_true, Bool.and_eq_true, Bool.and_eq_true, Bool.and_eq_true] at h
       obtain ⟨⟨⟨⟨⟨⟨⟨⟨h1, h2⟩, h3⟩, h4⟩, h5⟩, h6⟩, h7⟩, h8⟩, h9⟩ := h
       exact ⟨h1, by simpa using h2, by simpa using h3, by simpa using h4,
         by simpa using h5, by simpa using h6, by simpa using h7,
         by simpa using h8, of_decide_eq_true h9⟩)
    | simp [scalarOk] at h

theorem drop_colon_sp (k vs : List Char) :
    (k ++ ':' :: ' ' :: vs).drop (k.length + 1) = ' ' :: vs := by
  have h1 : (k ++ ':' :: ' ' :: vs).drop k.length = ':' :: ' ' :: vs :=
    List.drop_left k _
  rw [← List.drop_drop, h1]
  rfl

theorem stepStack_flat (p : String × Value) (rest : List (List Char))
    (acc : List (String × Value))
    (hk : keyOk p.1 = true) (hv : scalarOk p.2 = true)
    (hfresh : ∀ q ∈ acc, q.1 ≠ p.1) :
    stepStack (renderLine p) rest [Frame.mk (-1) (.vobj acc) []]
      = [Frame.mk (-1) (.vobj (acc ++ [p])) []] := by
  obtain ⟨hkE, hkC, hkN, hkH, hkD⟩ := keyOk_parts p.1 hk
  obtain ⟨hvE, hvN, hvP1, hvP2, hvP3, hvP4, hvBr, hvBc, hvPV⟩ := scalarOk_parts p.2 hv
  obtain ⟨hk0, hk1, _⟩ := noEdgeWs_parts _ hkE
  obtain ⟨hv0, _, _⟩ := noEdgeWs_parts _ hvE
  have htrim : trimCh (renderLine p) = renderLine p :=
    trimCh_eq_self _ (noEdgeWs_render _ _ hkE hvE)
  obtain ⟨c, t, hct⟩ : ∃ c t, p.1.data = c :: t := by
    cases hc : p.1.data with
    | nil => exact absurd hc hk0
    | cons c t => exact ⟨c, t, rfl⟩
  have hcw : isWs c = false := by
    rw [hct] at hk1
    simpa using hk1
  have hkH2 : c ≠ '#' := by
    intro hcon
    apply hkH
    rw [hct, hcon]
    rfl
  have hkD2 : c ≠ '-' := by
    intro hcon
    apply hkD
    rw [hct, hcon]
    rfl
  have hlineC : renderLine p = c :: (t ++ ':' :: ' ' :: (valueToString p.2).data) := by
    rw [renderLine, hct, List.cons_append]
  have hsearch : searchNonWs (renderLine p) = 0 := by
    rw [hlineC]
    exact searchNonWs_head c _ hcw
  have hC1 : ((renderLine p) == [] || ((renderLine p).take 1) == ['#']) = false := by
    rw [hlineC]
    simp [hkH2]
  have hT2 : (((renderLine p).take 2) == ['-', ' ']) = false := by
    rw [beq_eq_false_iff_ne]
    intro hcon
    rw [hlineC] at hcon
    have hcon2 : c :: List.take 1 (t ++ ':' :: ' ' :: (valueToString p.2).data)
        = ['-', ' '] := hcon
    injection hcon2 with hc1 _
    exact hkD2 hc1
  have hT1 : ((renderLine p) == ['-']) = false := by
    rw [beq_eq_false_iff_ne]
    intro hcon
    rw [hlineC] at hcon
    injection hcon with h1 h2
    simp at h2
  have hidx : idxOf ':' (renderLine p) = (p.1.data.length : Int) := by
    rw [renderLine]
    exact idxOf_first _ _ hkC
  have hidxPos : idxOf ':' (renderLine p) > 0 := by
    have hlp : 0 < p.1.data.length := by
      rw [hct]
      simp
    rw [hidx]
    exact_mod_cast hlp
  have hpop : popTo [Frame.mk (-1) (.vobj acc) []] (((0 : Int).toNat : Nat) : Int)
      = [Frame.mk (-1) (.vobj acc) []] := rfl
  have hidx2 : idxOf ':' (p.1.data ++ ':' :: ' ' :: (valueToString p.2).data)
      = (p.1.data.length : Int) := idxOf_first _ _ hkC
  have hkV : keyValueStep ((0 : Int).toNat) (renderLine p) rest
      (Frame.mk (-1) (.vobj acc) []) []
      = [Frame.mk (-1) (.vobj (acc ++ [p])) []] := by
    simp only [keyValueStep, renderLine, hidx2, Int.toNat_natCast, List.take_left,
      drop_colon_sp]
    rw [trimCh_eq_self _ hkE, strMk_data,
      trimCh_space _ (trimCh_eq_self _ hvE)]
    rw [if_neg (by
      intro hcon
      simp only [Bool.or_eq_true, beq_iff_eq] at hcon
      casesm* _ ∨ _
      all_goals first
        | exact hv0 (by assumption)
        | exact hvP1 (by assumption)
        | exact hvP2 (by assumption)
        | exact hvP3 (by assumption)
        | exact hvP4 (by assumption))]
    rw [if_neg (by simp [hvBr]), if_neg (by simp [hvBc])]
    simp only [Value.jsSet]
    rw [objSet_fresh p.1 _ acc hfresh, hvPV]
  calc stepStack (renderLine p) rest [Frame.mk (-1) (.vobj acc) []]
      = keyValueStep ((0 : Int).toNat) (renderLine p) rest
          (Frame.mk (-1) (.vobj acc) []) [] := by
        simp only [stepStack, htrim, hC1, Bool.false_eq_true, if_false, hsearch]
        rw [if_neg (by omega : ¬((0 : Int) < 0))]
        simp only [hpop, hT2, Bool.false_eq_true, if_false, hT1]
        rw [if_pos hidxPos]
    _ = [Frame.mk (-1) (.vobj (acc ++ [p])) []] := hkV

theorem contains_false_iff (l : List Char) (c : Char) :
    l.contains c = false ↔ c ∉ l := by
  constructor
  · intro h hmem
    have h2 : l.elem c = true := List.elem_iff.2 hmem
    rw [show l.contains c = l.elem c from rfl, h2] at h
    cases h
  · intro h
    cases hx : l.contains c with
    | false => rfl
    | true =>
      have h2 : c ∈ l := List.elem_iff.1 (by
        rw [show l.elem c = l.contains c from rfl, hx])
      exact absurd h2 h

theorem renderLine_no_nl (k : String) (v : Value)
    (hkN : k.data.contains '\n' = false)
    (hvN : (valueToString v).data.contains '\n' = false) :
    (renderLine (k, v)).contains '\n' = false := by
  rw [contains_false_iff]
  intro hmem
  rw [renderLine] at hmem
  rcases List.mem_append.1 hmem with h | h
  · exact ((contains_false_iff _ _).1 hkN) h
  · simp only [List.mem_cons] at h
    rcases h with h | h | h
    · exact absurd h (by decide)
    · exact absurd h (by decide)
    · exact ((contains_false_iff _ _).1 hvN) h

theorem stringifyFields_data_cons (k : String) (v : Value)
    (t : List (String × Value)) (hnv : scalarOk v = true) :
    (stringifyFields ((k, v) :: t) 0).data
      = renderLine (k, v) ++ '\n' :: (stringifyFields t 0).data := by
  have hcl : ((": ") : String).data = [':', ' '] := rfl
  have hnl : (("\n") : String).data = ['\n'] := rfl
  cases v with
  | vobj gs => simp [scalarOk] at hnv
  | varr xs => simp [scalarOk] at hnv
  | vnull =>
    show ((spacesN 0 ++ k ++ ": " ++ valueToString .vnull ++ "\n")
        ++ stringifyFields t 0).data = _
    simp [String.data_append, spacesN, renderLine, hcl, hnl]
  | vbool b =>
    show ((spacesN 0 ++ k ++ ": " ++ valueToString (.vbool b) ++ "\n")
        ++ stringifyFields t 0).data = _
    simp [String.data_append, spacesN, renderLine, hcl, hnl]
  | vnum q =>
    show ((spacesN 0 ++ k ++ ": " ++ valueToString (.vnum q) ++ "\n")
        ++ stringifyFields t 0).data = _
    simp [String.data_append, spacesN, renderLine, hcl, hnl]
  | vstr s0 =>
    show ((spacesN 0 ++ k ++ ": " ++ valueToString (.vstr s0) ++ "\n")
        ++ stringifyFields t 0).data = _
    simp [String.data_append, spacesN, renderLine, hcl, hnl]

theorem splitNl_stringify : ∀ fs : List (String × Value), fs.all fieldOk = true →
    splitNlCh ((stringifyFields fs 0).data) = fs.map renderLine ++ [[]] := by
  intro fs
  induction fs with
  | nil => intro h; rfl
  | cons p t ih =>
    intro hall
    obtain ⟨hpf, htf⟩ : fieldOk p = true ∧ t.all fieldOk = true := by
      simpa [List.all_cons, Bool.and_eq_true] using hall
    obtain ⟨hk, hv⟩ : keyOk p.1 = true ∧ scalarOk p.2 = true := by
      simpa [fieldOk, Bool.and_eq_true] using hpf
    obtain ⟨k, v⟩ := p
    obtain ⟨_, _, hkN, _, _⟩ := keyOk_parts k hk
    obtain ⟨_, hvN, _, _, _, _, _, _, _⟩ := scalarOk_parts v hv
    rw [stringifyFields_data_cons k v t hv,
      splitNlCh_line _ _ (renderLine_no_nl k v hkN hvN), ih htf]
    rfl

theorem runPLook_flat : ∀ (fs acc : List (String × Value)) (E : List Diag)
    (u li n : Nat) (c : List (List Char)),
    fs.all fieldOk = true →
    (∀ p ∈ fs, ∀ q ∈ acc, q.1 ≠ p.1) →
    (fs.map Prod.fst).Nodup →
    (runPLook (fs.map renderLine) c
        ⟨[Frame.mk (-1) (.vobj acc) []], E, u, li, n⟩).stack
      = [Frame.mk (-1) (.vobj (acc ++ fs)) []] := by
  intro fs
  induction fs with
  | nil =>
    intro acc E u li n c _ _ _
    simp [runPLook]
  | cons p t ih =>
    intro acc E u li n c hall hfresh hnd
    obtain ⟨hpf, htf⟩ : fieldOk p = true ∧ t.all fieldOk = true := by
      simpa [List.all_cons, Bool.and_eq_true] using hall
    obtain ⟨hk, hv⟩ : keyOk p.1 = true ∧ scalarOk p.2 = true := by
      simpa [fieldOk, Bool.and_eq_true] using hpf
    show (runPLook (t.map renderLine) c
        (step (renderLine p) (t.map renderLine ++ c)
          ⟨[Frame.mk (-1) (.vobj acc) []], E, u, li, n⟩)).stack = _
    have hstep0 : step (renderLine p) (t.map renderLine ++ c)
        ⟨[Frame.mk (-1) (.vobj acc) []], E, u, li, n⟩
        = ⟨stepStack (renderLine p) (t.map renderLine ++ c)
             [Frame.mk (-1) (.vobj acc) []],
           E ++ stepErrs (renderLine p) ⟨[Frame.mk (-1) (.vobj acc) []], E, u, li, n⟩,
           stepUnit (renderLine p) ⟨[Frame.mk (-1) (.vobj acc) []], E, u, li, n⟩,
           stepLast (renderLine p) ⟨[Frame.mk (-1) (.vobj acc) []], E, u, li, n⟩,
           n + 1⟩ := rfl
    rw [hstep0,
      stepStack_flat p _ acc hk hv (fun q hq => hfresh p (List.mem_cons_self p t) q hq)]
    have hfresh2 : ∀ r ∈ t, ∀ q ∈ acc ++ [p], q.1 ≠ r.1 := by
      intro r hr q hq
      rcases List.mem_append.1 hq with h | h
      · exact hfresh r (List.mem_cons_of_mem p hr) q h
      · simp only [List.mem_singleton] at h
        subst h
        intro hcon
        apply (List.nodup_cons.1 hnd).1
        have h2 : r.1 ∈ t.map Prod.fst := List.mem_map_of_mem Prod.fst hr
        rw [← hcon] at h2
        exact h2
    conv_rhs => rw [List.append_cons]
    exact ih (acc ++ [p]) _ _ _ _ c htf hfresh2 (List.nodup_cons.1 hnd).2

/-- C1 (amended): the round-trip `parse (stringify tree) = tree` holds on
the stable flat class — objects of scalar fields whose keys and rendered
scalar values are nonempty, free of newlines, colons (keys), leading or
trailing whitespace, comment and dash lead-ins and block-scalar spellings,
whose scalars re-parse to themselves, and whose keys are distinct.
Outside this class the round-trip can change the tree (see the
counterexample: a clean parse whose tree holds the string `"true"`
round-trips to the boolean `true`). -/
theorem c1_flat_roundtrip_amended (fs : List (String × Value))
    (h : flatOk fs = true) :
    (parse (stringify (.vobj fs) 0)).data = .vobj fs := by
  obtain ⟨hall, hnd⟩ : fs.all fieldOk = true ∧ (fs.map Prod.fst).Nodup := by
    unfold flatOk at h
    rw [Bool.and_eq_true] at h
    exact ⟨h.1, of_decide_eq_true h.2⟩
  show flushAll (runP (splitNlCh (stringify (.vobj fs) 0).data) initState).stack
      = Value.vobj fs
  rw [show stringify (.vobj fs) 0 = stringifyFields fs 0 from rfl,
    splitNl_stringify fs hall, runP_eq_runPLook, runPLook_append]
  have houter : ∀ st : PState, (runPLook [[]] [] st).stack = st.stack := by
    intro st
    show (step [] [] st).stack = st.stack
    rw [step_stack]
    simp [stepStack, trimCh]
  rw [houter]
  have hrun : (runPLook (fs.map renderLine) ([[]] ++ []) initState).stack
      = [Frame.mk (-1) (.vobj ([] ++ fs)) []] :=
    runPLook_flat fs [] [] 0 0 0 ([[]] ++ []) hall (by intro p hp q hq; cases hq) hnd
  rw [hrun]
  simp [flushAll, flushAux]

/-- C1 (amended) witness: the flat object `{a: 1, b: nginx}` is in the
stable class and round-trips exactly. -/
theorem c1_flat_roundtrip_amended_witness :
    flatOk [(("a"), .vnum 1), (("b"), .vstr ("nginx"))] = true
      ∧ (parse (stringify (.vobj [(("a"), .vnum 1), (("b"), .vstr ("nginx"))]) 0)).data
        = .vobj [(("a"), .vnum 1), (("b"), .vstr ("nginx"))] :=
  ⟨by decide, c1_flat_roundtrip_amended
    [(("a"), .vnum 1), (("b"), .vstr ("nginx"))] (by decide)⟩

end DYE
